import Mathlib

/-!
Shallow embedding of the core of the Stoat shogi engine (bitboards, attacks,
position state, move generation, legality, SEE, transposition table, SFEN
parsing, sennichite detection), together with theorems settling the spec
claims.  Machine integers are modelled as `Nat` with explicit reductions
modulo `2 ^ w` where the C++ semantics truncate; `u128` values are `Nat`s
kept below `2 ^ 128` by the operations themselves.
-/

namespace Stoat

/-! ### 128-bit arithmetic helpers (u128 semantics) -/

/-- `toU128 high low` from types.h: `(u128 high << 64) | low`. -/
def toU128 (high low : Nat) : Nat := (high <<< 64) ||| low

/-- u128 two's-complement negation `-x` (used by `isolateLsb`). -/
def neg128 (x : Nat) : Nat := (2 ^ 128 - x % 2 ^ 128) % 2 ^ 128

/-- u128 bitwise complement `~x` for `x < 2^128`. -/
def unot128 (x : Nat) : Nat := x ^^^ (2 ^ 128 - 1)

/-- u128 left shift (truncating at 128 bits). -/
def shl128 (x n : Nat) : Nat := (x <<< n) % 2 ^ 128

/-- u64 arithmetic for the Zobrist PRNG. -/
def add64 (a b : Nat) : Nat := (a + b) % 2 ^ 64

def sub64 (a b : Nat) : Nat := (a + (2 ^ 64 - b % 2 ^ 64)) % 2 ^ 64

def rotl64 (x n : Nat) : Nat := ((x <<< n) ||| (x >>> (64 - n))) % 2 ^ 64

/-- `util::ctz` (fallback path): index of the lowest set bit, scanning up to
128 bits; returns 128 on zero input, as the C++ loop does. -/
def ctzFrom (v : Nat) : Nat → Nat → Nat
  | i, 0 => i
  | i, fuel + 1 => if v.testBit i then i else ctzFrom v (i + 1) fuel

def ctz128 (v : Nat) : Nat := ctzFrom v 0 128

/-- `util::popcount` on a u128 value: number of set bits among the low 128. -/
def popcount128 (v : Nat) : Nat := ((List.range 128).filter (fun i => v.testBit i)).length

/-- The ascending list of set-bit indices of a u128 value, exactly the
sequence produced by repeated `popLsb` (`m_bb &= m_bb - 1`). -/
def bitList (bb : Nat) : Nat → List Nat
  | 0 => []
  | fuel + 1 => if bb = 0 then [] else ctz128 bb :: bitList (bb &&& (bb - 1)) fuel

/-! ### Colors, piece types, pieces, squares (core.h)

Packed integer ids exactly as in the source: `Color` 0 = black, 1 = white;
`PieceType` ids 0..13 with 14 = none; `Piece` = `(type << 1) | color` with
28 = none; `Square` 0..80 with 81 = none. -/

def colorFlip (c : Nat) : Nat := c ^^^ 1

def ptPawn : Nat := 0
def ptPromotedPawn : Nat := 1
def ptLance : Nat := 2
def ptKnight : Nat := 3
def ptPromotedLance : Nat := 4
def ptPromotedKnight : Nat := 5
def ptSilver : Nat := 6
def ptPromotedSilver : Nat := 7
def ptGold : Nat := 8
def ptBishop : Nat := 9
def ptRook : Nat := 10
def ptPromotedBishop : Nat := 11
def ptPromotedRook : Nat := 12
def ptKing : Nat := 13
def ptNone : Nat := 14

def pieceNone : Nat := 28

/-- `PieceType::isPromoted`. -/
def isPromotedPt (pt : Nat) : Bool :=
  pt = ptPromotedPawn || pt = ptPromotedLance || pt = ptPromotedKnight ||
  pt = ptPromotedSilver || pt = ptPromotedBishop || pt = ptPromotedRook

/-- `PieceType::canPromote`. -/
def canPromotePt (pt : Nat) : Bool :=
  pt = ptPawn || pt = ptLance || pt = ptKnight || pt = ptSilver || pt = ptBishop || pt = ptRook

/-- `PieceType::promoted`. -/
def promotedPt (pt : Nat) : Nat :=
  if pt = ptPawn then ptPromotedPawn
  else if pt = ptLance then ptPromotedLance
  else if pt = ptKnight then ptPromotedKnight
  else if pt = ptSilver then ptPromotedSilver
  else if pt = ptBishop then ptPromotedBishop
  else if pt = ptRook then ptPromotedRook
  else ptNone

/-- `PieceType::unpromoted`. -/
def unpromotedPt (pt : Nat) : Nat :=
  if pt = ptPromotedPawn then ptPawn
  else if pt = ptPromotedLance then ptLance
  else if pt = ptPromotedKnight then ptKnight
  else if pt = ptPromotedSilver then ptSilver
  else if pt = ptPromotedBishop then ptBishop
  else if pt = ptPromotedRook then ptRook
  else pt

/-- `PieceType::withColor`. -/
def withColor (pt c : Nat) : Nat := (pt <<< 1) ||| c

/-- `Piece::type`. -/
def pieceType (p : Nat) : Nat := p >>> 1

/-- `Piece::color`. -/
def pieceColor (p : Nat) : Nat := p &&& 1

/-- `Piece::promoted`. -/
def piecePromoted (p : Nat) : Nat := withColor (promotedPt (pieceType p)) (pieceColor p)

/-- `Piece::typeOrNone` (none piece maps to the none type). -/
def pieceTypeOrNone (p : Nat) : Nat := if p = pieceNone then ptNone else p >>> 1

/-- `Square::bit`: `u128{1} << id`. -/
def sqBit (sq : Nat) : Nat := shl128 1 sq

/-- `Square::fromFileRank`. -/
def fromFileRank (file rank : Nat) : Nat := rank * 9 + file

/-- `Square::offset` (square ids are 0..80; the C++ takes an `i32` offset). -/
def sqOffset (sq : Nat) (off : Int) : Nat := ((sq : Int) + off).toNat

/-! ### Bitboard (bitboard.h)

A bitboard is a u128 value (`Nat < 2^128`); only the low 81 bits are
semantic.  Operation names follow the source. -/

def kAll : Nat := toU128 0x1ffff 0xffffffffffffffff

def kRankI : Nat := toU128 0 0x1ff
def kRankH : Nat := toU128 0 0x3fe00
def kRankG : Nat := toU128 0 0x7fc0000
def kRankF : Nat := toU128 0 0xff8000000
def kRankE : Nat := toU128 0 0x1ff000000000
def kRankD : Nat := toU128 0 0x3fe00000000000
def kRankC : Nat := toU128 0 0x7fc0000000000000
def kRankB : Nat := toU128 0xff 0x8000000000000000
def kRankA : Nat := toU128 0x1ff00 0

def kFile9 : Nat := toU128 0x100 0x8040201008040201
def kFile8 : Nat := toU128 0x201 0x80402010080402
def kFile7 : Nat := toU128 0x402 0x100804020100804
def kFile6 : Nat := toU128 0x804 0x201008040201008
def kFile5 : Nat := toU128 0x1008 0x402010080402010
def kFile4 : Nat := toU128 0x2010 0x804020100804020
def kFile3 : Nat := toU128 0x4020 0x1008040201008040
def kFile2 : Nat := toU128 0x8040 0x2010080402010080
def kFile1 : Nat := toU128 0x10080 0x4020100804020100

/-- `Bitboard::operator~`: `~m_bb & kAll`. -/
def bbNot (x : Nat) : Nat := unot128 x &&& kAll

/-- `Bitboard::operator<<` (u128 shift, no masking). -/
def bbShl (x n : Nat) : Nat := shl128 x n

/-- `Bitboard::operator>>`. -/
def bbShr (x n : Nat) : Nat := x >>> n

/-- `Bitboard::getSquare`: `(m_bb & square.bit()) != 0`. -/
def getSquare (bb sq : Nat) : Bool := bb &&& sqBit sq != 0

/-- `Bitboard::empty`. -/
def bbEmpty (bb : Nat) : Bool := bb == 0

/-- `Bitboard::multiple`: `(m_bb & (m_bb - 1)) != 0`. -/
def bbMultiple (bb : Nat) : Bool := bb &&& (bb - 1) != 0

/-- `Bitboard::one`. -/
def bbOne (bb : Nat) : Bool := !bbEmpty bb && !bbMultiple bb

/-- `Bitboard::lsb`. -/
def bbLsb (bb : Nat) : Nat := ctz128 bb

/-- `Bitboard::isolateLsb`: `m_bb & -m_bb`. -/
def isolateLsb (bb : Nat) : Nat := bb &&& neg128 bb

def shiftNorth (x : Nat) : Nat := shl128 (x &&& unot128 kRankA) 9
def shiftSouth (x : Nat) : Nat := x >>> 9
def shiftWest (x : Nat) : Nat := (x &&& unot128 kFile9) >>> 1
def shiftEast (x : Nat) : Nat := shl128 (x &&& unot128 kFile1) 1
def shiftNorthWest (x : Nat) : Nat := shl128 (x &&& unot128 (kRankA ||| kFile9)) 8
def shiftNorthEast (x : Nat) : Nat := shl128 (x &&& unot128 (kRankA ||| kFile1)) 10
def shiftSouthWest (x : Nat) : Nat := (x &&& unot128 kFile9) >>> 10
def shiftSouthEast (x : Nat) : Nat := (x &&& unot128 kFile1) >>> 8

def shiftNorthRelative (c x : Nat) : Nat := if c = 0 then shiftNorth x else shiftSouth x
def shiftSouthRelative (c x : Nat) : Nat := if c = 0 then shiftSouth x else shiftNorth x
def shiftWestRelative (c x : Nat) : Nat := if c = 0 then shiftWest x else shiftEast x
def shiftEastRelative (c x : Nat) : Nat := if c = 0 then shiftEast x else shiftWest x
def shiftNorthWestRelative (c x : Nat) : Nat := if c = 0 then shiftNorthWest x else shiftSouthEast x
def shiftNorthEastRelative (c x : Nat) : Nat := if c = 0 then shiftNorthEast x else shiftSouthWest x

def fillUp (x : Nat) : Nat :=
  let b1 := x ||| shl128 x 9
  let b2 := b1 ||| shl128 b1 18
  let b3 := b2 ||| shl128 b2 36
  let b4 := b3 ||| shl128 b3 72
  b4 &&& kAll

def fillDown (x : Nat) : Nat :=
  let b1 := x ||| x >>> 9
  let b2 := b1 ||| b1 >>> 18
  let b3 := b2 ||| b2 >>> 36
  let b4 := b3 ||| b3 >>> 72
  b4 &&& kAll

def fillFile (x : Nat) : Nat := fillUp x ||| fillDown x

/-- `Bitboards::promoArea`. -/
def promoArea (c : Nat) : Nat :=
  if c = 0 then kRankA ||| kRankB ||| kRankC else kRankI ||| kRankH ||| kRankG

def kRanks : List Nat := [kRankI, kRankH, kRankG, kRankF, kRankE, kRankD, kRankC, kRankB, kRankA]

/-- `Bitboards::relativeRank`. -/
def relativeRank (c rank : Nat) : Nat :=
  if c = 0 then kRanks.getD rank 0 else kRanks.getD (8 - rank) 0

/-! ### Attacks (attacks/attacks.h, attacks/util.h)

Leaping attacks are the shift-built tables; sliding attacks are the
source's constant-evaluation reference path (`generateSlidingAttacks`),
which the magic-table runtime path is required to reproduce. -/

def offNorth : Int := 9
def offSouth : Int := -9
def offWest : Int := -1
def offEast : Int := 1
def offNorthWest : Int := 8
def offNorthEast : Int := 10
def offSouthWest : Int := -10
def offSouthEast : Int := -8

/-- `offsets::relativeOffset`. -/
def relativeOffset (c : Nat) (off : Int) : Int := if c = 0 then off else -off

def pawnAttacks (sq c : Nat) : Nat := shiftNorthRelative c (sqBit sq) &&& kAll

def knightAttacks (sq c : Nat) : Nat :=
  (shiftNorthWestRelative c (shiftNorthRelative c (sqBit sq)) |||
   shiftNorthEastRelative c (shiftNorthRelative c (sqBit sq))) &&& kAll

def silverAttacks (sq c : Nat) : Nat :=
  (shiftNorthWest (sqBit sq) ||| shiftNorthEast (sqBit sq) |||
   shiftSouthWest (sqBit sq) ||| shiftSouthEast (sqBit sq) |||
   shiftNorthRelative c (sqBit sq)) &&& kAll

def goldAttacks (sq c : Nat) : Nat :=
  (shiftNorth (sqBit sq) ||| shiftSouth (sqBit sq) ||| shiftWest (sqBit sq) |||
   shiftEast (sqBit sq) ||| shiftNorthWestRelative c (sqBit sq) |||
   shiftNorthEastRelative c (sqBit sq)) &&& kAll

def kingAttacks (sq : Nat) : Nat :=
  (shiftNorth (sqBit sq) ||| shiftSouth (sqBit sq) ||| shiftWest (sqBit sq) |||
   shiftEast (sqBit sq) ||| shiftNorthWest (sqBit sq) ||| shiftNorthEast (sqBit sq) |||
   shiftSouthWest (sqBit sq) ||| shiftSouthEast (sqBit sq)) &&& kAll

/-- `attacks::internal::edges`. -/
def edges (dir : Int) : Nat :=
  if dir = offNorth then kRankA
  else if dir = offSouth then kRankI
  else if dir = offWest then kFile9
  else if dir = offEast then kFile1
  else if dir = offNorthWest then kRankA ||| kFile9
  else if dir = offNorthEast then kRankA ||| kFile1
  else if dir = offSouthWest then kRankI ||| kFile9
  else if dir = offSouthEast then kRankI ||| kFile1
  else 0

/-- The do-while body of `generateSlidingAttacks` (fuel-bounded; the C++
loop always stops at the direction's edge mask within at most 9 steps). -/
def slideLoop (blockers : Nat) (right : Bool) (shift : Nat) : Nat → Nat → Nat → Nat
  | _, dst, 0 => dst
  | bit, dst, fuel + 1 =>
    let bit' := if right then bit >>> shift else shl128 bit shift
    let dst' := dst ||| bit'
    if bit' &&& blockers = 0 then slideLoop blockers right shift bit' dst' fuel else dst'

/-- `attacks::internal::generateSlidingAttacks`. -/
def generateSlidingAttacks (src : Nat) (dir : Int) (occ : Nat) : Nat :=
  let blockers := edges dir
  let bit := sqBit src
  if blockers &&& bit != 0 then 0
  else slideLoop (blockers ||| occ) (dir < 0) dir.natAbs bit 0 16

/-- `attacks::internal::generateMultiSlidingAttacks`. -/
def multiSlidingAttacks (dirs : List Int) (sq occ : Nat) : Nat :=
  dirs.foldl (fun acc d => acc ||| generateSlidingAttacks sq d occ) 0

def lanceAttacks (sq c occ : Nat) : Nat :=
  if c = 0 then multiSlidingAttacks [offNorth] sq occ
  else multiSlidingAttacks [offSouth] sq occ

def bishopAttacks (sq occ : Nat) : Nat :=
  multiSlidingAttacks [offNorthWest, offNorthEast, offSouthWest, offSouthEast] sq occ

def rookAttacks (sq occ : Nat) : Nat :=
  multiSlidingAttacks [offNorth, offSouth, offWest, offEast] sq occ

def promotedBishopAttacks (sq occ : Nat) : Nat := bishopAttacks sq occ ||| kingAttacks sq

def promotedRookAttacks (sq occ : Nat) : Nat := rookAttacks sq occ ||| kingAttacks sq

/-- `attacks::pieceAttacks` dispatch. -/
def pieceAttacks (pt sq c occ : Nat) : Nat :=
  if pt = ptPawn then pawnAttacks sq c
  else if pt = ptPromotedPawn then goldAttacks sq c
  else if pt = ptLance then lanceAttacks sq c occ
  else if pt = ptKnight then knightAttacks sq c
  else if pt = ptPromotedLance then goldAttacks sq c
  else if pt = ptPromotedKnight then goldAttacks sq c
  else if pt = ptSilver then silverAttacks sq c
  else if pt = ptPromotedSilver then goldAttacks sq c
  else if pt = ptGold then goldAttacks sq c
  else if pt = ptBishop then bishopAttacks sq occ
  else if pt = ptRook then rookAttacks sq occ
  else if pt = ptPromotedBishop then promotedBishopAttacks sq occ
  else if pt = ptPromotedRook then promotedRookAttacks sq occ
  else kingAttacks sq

def emptyBoardRookAttacks (sq : Nat) : Nat := rookAttacks sq 0

def emptyBoardBishopAttacks (sq : Nat) : Nat := bishopAttacks sq 0

/-! ### Ray tables (rays.h), expressed as functions of the two squares. -/

/-- `kBetweenRays` entry for `(a, b)`. -/
def rayBetween (a b : Nat) : Nat :=
  if a = b then 0
  else if getSquare (emptyBoardRookAttacks a) b then
    rookAttacks a (sqBit b) &&& rookAttacks b (sqBit a)
  else if getSquare (emptyBoardBishopAttacks a) b then
    bishopAttacks a (sqBit b) &&& bishopAttacks b (sqBit a)
  else 0

/-- `kIntersectingRays` entry for `(a, b)`. -/
def rayIntersecting (a b : Nat) : Nat :=
  if a = b then 0
  else if getSquare (emptyBoardRookAttacks a) b then
    (sqBit a ||| rookAttacks a 0) &&& (sqBit b ||| rookAttacks b 0)
  else if getSquare (emptyBoardBishopAttacks a) b then
    (sqBit a ||| bishopAttacks a 0) &&& (sqBit b ||| bishopAttacks b 0)
  else 0

/-! ### Zobrist keys (keys.h, util/rng.h) -/

structure Jsf where
  a : Nat
  b : Nat
  c : Nat
  d : Nat

/-- One step of `Jsf64Rng::nextU64`; returns the new state and the output. -/
def jsfNext (s : Jsf) : Jsf × Nat :=
  let e := sub64 s.a (rotl64 s.b 7)
  let a := s.b ^^^ rotl64 s.c 13
  let b := add64 s.c (rotl64 s.d 37)
  let c := add64 s.d e
  let d := add64 e a
  (⟨a, b, c, d⟩, d)

def jsfWarm (s : Jsf) : Nat → Jsf
  | 0 => s
  | n + 1 => jsfWarm (jsfNext s).1 n

/-- `Jsf64Rng{seed}`: 20 warm-up rounds. -/
def jsfInit (seed : Nat) : Jsf := jsfWarm ⟨0xf1ea5eed, seed, seed, seed⟩ 20

def jsfRun (s : Jsf) : Nat → List Nat
  | 0 => []
  | n + 1 =>
    let r := jsfNext s
    r.2 :: jsfRun r.1 n

/-- `maxPiecesInHand` (core.h): `(bit_floor(count) << 1) - 1`. -/
def maxPiecesInHand (pt : Nat) : Nat :=
  if pt = ptPawn then 31
  else if pt = ptLance || pt = ptKnight || pt = ptSilver || pt = ptGold then 7
  else if pt = ptBishop || pt = ptRook then 3
  else 0

/-- Total key count: 28*81 piece-square + 1 stm + per-count hand keys. -/
def kKeysTotal : Nat := 28 * 81 + 1 + 64 + 16 * 4 + 8 * 2

def kKeys : List Nat := jsfRun (jsfInit 0x590d3524d1d6301c) kKeysTotal

def keyPieceSquare (piece sq : Nat) : Nat := kKeys.getD (sq * 28 + piece) 0

def keyStm : Nat := kKeys.getD 2268 0

/-- Offsets of the hand-count key blocks, as laid out in keys.h. -/
def handKeyOffset (pt : Nat) : Nat :=
  if pt = ptPawn then 2269
  else if pt = ptLance then 2333
  else if pt = ptKnight then 2349
  else if pt = ptSilver then 2365
  else if pt = ptGold then 2381
  else if pt = ptBishop then 2397
  else 2405

def keyPieceInHand (c pt count : Nat) : Nat := kKeys.getD (handKeyOffset pt + count * 2 + c) 0

/-! ### Hand (position.h / position.cpp): packed counts in a u32. -/

def handOffset (pt : Nat) : Nat :=
  if pt = ptPawn then 0
  else if pt = ptLance then 5
  else if pt = ptKnight then 8
  else if pt = ptSilver then 11
  else if pt = ptGold then 14
  else if pt = ptBishop then 17
  else if pt = ptRook then 19
  else 0

def handMask (pt : Nat) : Nat :=
  if pt = ptPawn then 31 <<< 0
  else if pt = ptLance then 7 <<< 5
  else if pt = ptKnight then 7 <<< 8
  else if pt = ptSilver then 7 <<< 11
  else if pt = ptGold then 7 <<< 14
  else if pt = ptBishop then 3 <<< 17
  else if pt = ptRook then 3 <<< 19
  else 0

/-- `Hand::count`. -/
def handCount (h pt : Nat) : Nat := (h &&& handMask pt) >>> handOffset pt

/-- `Hand::set` (u32 semantics; `~mask` over 32 bits). -/
def handSet (h pt count : Nat) : Nat :=
  (h &&& (handMask pt ^^^ (2 ^ 32 - 1))) ||| (count <<< handOffset pt)

/-- `Hand::increment` applied to the hand (returns the new hand). -/
def handIncrement (h pt : Nat) : Nat := handSet h pt (handCount h pt + 1)

/-- `Hand::decrement` applied to the hand. -/
def handDecrement (h pt : Nat) : Nat := handSet h pt (handCount h pt - 1)

/-- `Hand::empty`. -/
def handEmpty (h : Nat) : Bool := h == 0

def kHandPieces : List Nat := [ptPawn, ptLance, ptKnight, ptSilver, ptGold, ptBishop, ptRook]

/-! ### Move encoding (move.h): packed 16-bit value. -/

/-- `Move::isDrop`. -/
def mIsDrop (m : Nat) : Bool := (m >>> 15) &&& 1 != 0

/-- `Move::isPromo`. -/
def mIsPromo (m : Nat) : Bool := (m >>> 14) &&& 1 != 0

/-- `Move::from`. -/
def mFrom (m : Nat) : Nat := (m >>> 7) &&& 127

/-- `Move::to`. -/
def mTo (m : Nat) : Nat := m &&& 127

def kDropPieces : List Nat := [ptPawn, ptLance, ptKnight, ptSilver, ptGold, ptBishop, ptRook]

/-- `Move::dropPiece`. -/
def mDropPiece (m : Nat) : Nat := kDropPieces.getD ((m >>> 7) &&& 7) ptPawn

/-- `Move::isNull`. -/
def mIsNull (m : Nat) : Bool := m == 0

def makeNormal (f t : Nat) : Nat := t ||| (f <<< 7)

def makePromotion (f t : Nat) : Nat := t ||| (f <<< 7) ||| (1 <<< 14)

/-- `kDropPieceIndices` lookup used by `Move::makeDrop`. -/
def dropPieceIndex (pt : Nat) : Nat :=
  if pt = ptPawn then 0
  else if pt = ptLance then 1
  else if pt = ptKnight then 2
  else if pt = ptSilver then 3
  else if pt = ptGold then 4
  else if pt = ptBishop then 5
  else 6

def makeDrop (pt t : Nat) : Nat := t ||| (dropPieceIndex pt <<< 7) ||| (1 <<< 15)

/-! ### Position state (position.h / position.cpp) -/

inductive SennichiteStatus where
  | kNone
  | kDraw
  | kWin
deriving DecidableEq

structure Position where
  mColors : Nat → Nat
  mPieces : Nat → Nat
  mMailbox : Nat → Nat
  mHands : Nat → Nat
  mConsecutiveChecks : Nat → Nat
  mKeys : Nat
  mCheckers : Nat
  mPinned : Nat
  mStm : Nat
  mMoveCount : Nat

/-- `Position::Position()`: empty board, black to move, move count 1. -/
def emptyPosition : Position :=
  ⟨fun _ => 0, fun _ => 0, fun _ => pieceNone, fun _ => 0, fun _ => 0, 0, 0, 0, 0, 1⟩

/-- Point update of an index-to-value function (array element assignment). -/
def updAt (f : Nat → Nat) (i v : Nat) : Nat → Nat := fun j => if j = i then v else f j

def Position.occupancy (pos : Position) : Nat := pos.mColors 0 ||| pos.mColors 1

def Position.colorBb (pos : Position) (c : Nat) : Nat := pos.mColors c

def Position.pieceTypeBb (pos : Position) (pt : Nat) : Nat := pos.mPieces pt

/-- `Position::pieceBb(PieceType, Color)`. -/
def Position.pieceBb (pos : Position) (pt c : Nat) : Nat := pos.mColors c &&& pos.mPieces pt

/-- `Position::pieceBb(Piece)`. -/
def Position.pieceBbOf (pos : Position) (p : Nat) : Nat :=
  pos.mColors (pieceColor p) &&& pos.mPieces (pieceType p)

def Position.pieceOn (pos : Position) (sq : Nat) : Nat := pos.mMailbox sq

def Position.hand (pos : Position) (c : Nat) : Nat := pos.mHands c

def Position.key (pos : Position) : Nat := pos.mKeys

def Position.isInCheck (pos : Position) : Bool := !bbEmpty pos.mCheckers

def Position.stm (pos : Position) : Nat := pos.mStm

/-- `Position::king`: lsb of the king bitboard. -/
def Position.king (pos : Position) (c : Nat) : Nat := bbLsb (pos.pieceBb ptKing c)

/-- `Position::isCapture`. -/
def Position.isCapture (pos : Position) (m : Nat) : Bool := pos.pieceOn (mTo m) != pieceNone

/-- `Position::addPiece`. -/
def Position.addPiece (pos : Position) (sq piece : Nat) : Position :=
  { pos with
    mColors := updAt pos.mColors (pieceColor piece) (pos.mColors (pieceColor piece) ||| sqBit sq)
    mPieces := updAt pos.mPieces (pieceType piece) (pos.mPieces (pieceType piece) ||| sqBit sq)
    mMailbox := updAt pos.mMailbox sq piece
    mKeys := pos.mKeys ^^^ keyPieceSquare piece sq }

/-- `Position::movePiece` (handles a capture exactly as the source does). -/
def Position.movePiece (pos : Position) (fromSq toSq piece : Nat) : Position :=
  let captured := pos.pieceOn toSq
  let pos1 :=
    if captured ≠ pieceNone then
      let handPt := unpromotedPt (pieceType captured)
      let capColor := pieceColor captured
      let newHand := handIncrement (pos.mHands (colorFlip capColor)) handPt
      let newCount := handCount newHand handPt
      { pos with
        mColors := updAt pos.mColors capColor (pos.mColors capColor ^^^ sqBit toSq)
        mPieces := updAt pos.mPieces (pieceType captured) (pos.mPieces (pieceType captured) ^^^ sqBit toSq)
        mHands := updAt pos.mHands (colorFlip capColor) newHand
        mKeys := pos.mKeys ^^^ keyPieceInHand (pieceColor piece) handPt (newCount - 1) ^^^
          keyPieceInHand (pieceColor piece) handPt newCount ^^^ keyPieceSquare captured toSq }
    else pos
  { pos1 with
    mColors := updAt pos1.mColors (pieceColor piece)
      (pos1.mColors (pieceColor piece) ^^^ sqBit fromSq ^^^ sqBit toSq)
    mPieces := updAt pos1.mPieces (pieceType piece)
      (pos1.mPieces (pieceType piece) ^^^ sqBit fromSq ^^^ sqBit toSq)
    mMailbox := updAt (updAt pos1.mMailbox fromSq pieceNone) toSq piece
    mKeys := pos1.mKeys ^^^ keyPieceSquare piece fromSq ^^^ keyPieceSquare piece toSq }

/-- `Position::promotePiece`. -/
def Position.promotePiece (pos : Position) (fromSq toSq piece : Nat) : Position :=
  let captured := pos.pieceOn toSq
  let pos1 :=
    if captured ≠ pieceNone then
      let handPt := unpromotedPt (pieceType captured)
      let capColor := pieceColor captured
      let newHand := handIncrement (pos.mHands (colorFlip capColor)) handPt
      let newCount := handCount newHand handPt
      { pos with
        mColors := updAt pos.mColors capColor (pos.mColors capColor ^^^ sqBit toSq)
        mPieces := updAt pos.mPieces (pieceType captured) (pos.mPieces (pieceType captured) ^^^ sqBit toSq)
        mHands := updAt pos.mHands (colorFlip capColor) newHand
        mKeys := pos.mKeys ^^^ keyPieceInHand (pieceColor piece) handPt (newCount - 1) ^^^
          keyPieceInHand (pieceColor piece) handPt newCount ^^^ keyPieceSquare captured toSq }
    else pos
  let promoted := piecePromoted piece
  { pos1 with
    mColors := updAt pos1.mColors (pieceColor piece)
      (pos1.mColors (pieceColor piece) ^^^ sqBit fromSq ^^^ sqBit toSq)
    mPieces := updAt (updAt pos1.mPieces (pieceType piece)
        (pos1.mPieces (pieceType piece) ^^^ sqBit fromSq))
      (pieceType promoted)
      ((updAt pos1.mPieces (pieceType piece) (pos1.mPieces (pieceType piece) ^^^ sqBit fromSq))
        (pieceType promoted) ^^^ sqBit toSq)
    mMailbox := updAt (updAt pos1.mMailbox fromSq pieceNone) toSq promoted
    mKeys := pos1.mKeys ^^^ keyPieceSquare piece fromSq ^^^ keyPieceSquare promoted toSq }

/-- `Position::dropPiece`. -/
def Position.dropPiece (pos : Position) (sq piece : Nat) : Position :=
  let pos1 := pos.addPiece sq piece
  let newHand := handDecrement (pos1.mHands (pieceColor piece)) (pieceType piece)
  let newCount := handCount newHand (pieceType piece)
  { pos1 with
    mHands := updAt pos1.mHands (pieceColor piece) newHand
    mKeys := pos1.mKeys ^^^ keyPieceInHand (pieceColor piece) (pieceType piece) (newCount + 1) ^^^
      keyPieceInHand (pieceColor piece) (pieceType piece) newCount }

/-- `Position::isAttacked(sq, attacker, occ)`. -/
def Position.isAttacked (pos : Position) (sq attacker occ : Nat) : Bool :=
  let c := colorFlip attacker
  let horses := pos.pieceBb ptPromotedBishop attacker
  let dragons := pos.pieceBb ptPromotedRook attacker
  let rooks := dragons ||| pos.pieceBb ptRook attacker
  if pos.pieceBb ptPawn attacker &&& pawnAttacks sq c != 0 then true
  else if pos.pieceBb ptKnight attacker &&& knightAttacks sq c != 0 then true
  else if pos.pieceBb ptSilver attacker &&& silverAttacks sq c != 0 then true
  else if (pos.pieceBb ptGold attacker ||| pos.pieceBb ptPromotedPawn attacker |||
      pos.pieceBb ptPromotedLance attacker ||| pos.pieceBb ptPromotedKnight attacker |||
      pos.pieceBb ptPromotedSilver attacker) &&& goldAttacks sq c != 0 then true
  else if (horses ||| dragons ||| pos.pieceBb ptKing attacker) &&& kingAttacks sq != 0 then true
  else if (rooks ||| pos.pieceBb ptLance attacker) &&& lanceAttacks sq c occ != 0 then true
  else if (horses ||| pos.pieceBb ptBishop attacker) &&& bishopAttacks sq occ != 0 then true
  else if rooks &&& rookAttacks sq occ != 0 then true
  else false

/-- `Position::attackersTo(sq, attacker)` (uses the current occupancy). -/
def Position.attackersTo (pos : Position) (sq attacker : Nat) : Nat :=
  let defender := colorFlip attacker
  let occ := pos.occupancy
  let horses := pos.pieceBb ptPromotedBishop attacker
  let dragons := pos.pieceBb ptPromotedRook attacker
  let golds := pos.pieceBb ptGold attacker ||| pos.pieceBb ptPromotedPawn attacker |||
    pos.pieceBb ptPromotedLance attacker ||| pos.pieceBb ptPromotedKnight attacker |||
    pos.pieceBb ptPromotedSilver attacker
  (pos.pieceBb ptPawn attacker &&& pawnAttacks sq defender) |||
  (pos.pieceBb ptLance attacker &&& lanceAttacks sq defender occ) |||
  (pos.pieceBb ptKnight attacker &&& knightAttacks sq defender) |||
  (pos.pieceBb ptSilver attacker &&& silverAttacks sq defender) |||
  (golds &&& goldAttacks sq defender) |||
  ((horses ||| pos.pieceBb ptBishop attacker) &&& bishopAttacks sq occ) |||
  ((dragons ||| pos.pieceBb ptRook attacker) &&& rookAttacks sq occ) |||
  ((horses ||| dragons ||| pos.pieceBb ptKing attacker) &&& kingAttacks sq)

/-- `Position::allAttackersTo(sq, occ)` (both colors). -/
def Position.allAttackersTo (pos : Position) (sq occ : Nat) : Nat :=
  let black := pos.colorBb 0
  let white := pos.colorBb 1
  let horses := pos.pieceTypeBb ptPromotedBishop
  let dragons := pos.pieceTypeBb ptPromotedRook
  let golds := pos.pieceTypeBb ptGold ||| pos.pieceTypeBb ptPromotedPawn |||
    pos.pieceTypeBb ptPromotedLance ||| pos.pieceTypeBb ptPromotedKnight |||
    pos.pieceTypeBb ptPromotedSilver
  (pos.pieceTypeBb ptPawn &&& black &&& pawnAttacks sq 1) |||
  (pos.pieceTypeBb ptPawn &&& white &&& pawnAttacks sq 0) |||
  (pos.pieceTypeBb ptLance &&& black &&& lanceAttacks sq 1 occ) |||
  (pos.pieceTypeBb ptLance &&& white &&& lanceAttacks sq 0 occ) |||
  (pos.pieceTypeBb ptKnight &&& black &&& knightAttacks sq 1) |||
  (pos.pieceTypeBb ptKnight &&& white &&& knightAttacks sq 0) |||
  (pos.pieceTypeBb ptSilver &&& black &&& silverAttacks sq 1) |||
  (pos.pieceTypeBb ptSilver &&& white &&& silverAttacks sq 0) |||
  (golds &&& black &&& goldAttacks sq 1) |||
  (golds &&& white &&& goldAttacks sq 0) |||
  ((horses ||| pos.pieceTypeBb ptBishop) &&& bishopAttacks sq occ) |||
  ((dragons ||| pos.pieceTypeBb ptRook) &&& rookAttacks sq occ) |||
  ((horses ||| dragons ||| pos.pieceTypeBb ptKing) &&& kingAttacks sq)

/-- The body of the pinned-piece scan in `Position::updateAttacks`. -/
def pinnedScan (stmOcc stmKing : Nat) (attackerList : List Nat) : Nat :=
  attackerList.foldl
    (fun acc attacker =>
      let maybePinned := stmOcc &&& rayBetween attacker stmKing
      if bbOne maybePinned then acc ||| maybePinned else acc)
    0

/-- `Position::updateAttacks`. -/
def Position.updateAttacks (pos : Position) : Position :=
  let stm := pos.stm
  let nstm := colorFlip stm
  let stmKing := pos.king stm
  let checkers := pos.attackersTo stmKing nstm
  let stmOcc := pos.colorBb stm
  let nstmOcc := pos.colorBb nstm
  let nstmLances := pos.pieceBb ptLance nstm
  let nstmBishops := pos.pieceBb ptBishop nstm ||| pos.pieceBb ptPromotedBishop nstm
  let nstmRooks := pos.pieceBb ptRook nstm ||| pos.pieceBb ptPromotedRook nstm
  let potentialAttackers := (lanceAttacks stmKing stm nstmOcc &&& nstmLances) |||
    (bishopAttacks stmKing nstmOcc &&& nstmBishops) |||
    (rookAttacks stmKing nstmOcc &&& nstmRooks)
  { pos with
    mCheckers := checkers
    mPinned := pinnedScan stmOcc stmKing (bitList potentialAttackers 128) }

/-- The board mutation performed by `Position::applyMove` (drop, promotion
or plain move) before the side to move flips. -/
def Position.applyMoveBoard (pos : Position) (move : Nat) : Position :=
  let stm := pos.stm
  if mIsDrop move then
    pos.dropPiece (mTo move) (withColor (mDropPiece move) stm)
  else
    let piece := pos.pieceOn (mFrom move)
    if mIsPromo move then pos.promotePiece (mFrom move) (mTo move) piece
    else pos.movePiece (mFrom move) (mTo move) piece

/-- `Position::applyMove`. -/
def Position.applyMove (pos : Position) (move : Nat) : Position :=
  let pos1 := pos.applyMoveBoard move
  let pos2 := { pos1 with
    mMoveCount := pos1.mMoveCount + 1
    mStm := colorFlip pos1.mStm
    mKeys := pos1.mKeys ^^^ keyStm }
  let pos3 := pos2.updateAttacks
  if pos3.isInCheck then
    { pos3 with
      mConsecutiveChecks := updAt pos3.mConsecutiveChecks pos3.stm (pos3.mConsecutiveChecks pos3.stm + 1) }
  else
    { pos3 with mConsecutiveChecks := updAt pos3.mConsecutiveChecks pos3.stm 0 }

/-- The state of `applyMove` just before the consecutive-check update
(board mutated, move count bumped, side to move flipped, attacks
recomputed); `applyMove` is definitionally this followed by the counter
update. -/
def Position.applyMovePre (pos : Position) (move : Nat) : Position :=
  Position.updateAttacks
    { pos.applyMoveBoard move with
      mMoveCount := (pos.applyMoveBoard move).mMoveCount + 1
      mStm := colorFlip (pos.applyMoveBoard move).mStm
      mKeys := (pos.applyMoveBoard move).mKeys ^^^ keyStm }

/-- `Position::applyNullMove`. -/
def Position.applyNullMove (pos : Position) : Position :=
  let pos2 := { pos with
    mMoveCount := pos.mMoveCount + 1
    mStm := colorFlip pos.mStm
    mKeys := pos.mKeys ^^^ keyStm }
  pos2.updateAttacks

/-- The status returned by `Position::testSennichite` when the repetition
count reaches zero. -/
def senniTerminal (pos : Position) (cuteChessWorkaround : Bool) : SennichiteStatus :=
  if cuteChessWorkaround then
    if pos.isInCheck then SennichiteStatus.kWin else SennichiteStatus.kDraw
  else
    if pos.mConsecutiveChecks pos.stm ≥ 2 then SennichiteStatus.kWin
    else SennichiteStatus.kDraw

/-- The backwards scan of `Position::testSennichite` (decreasing index `i`,
step 2, stopping below `endIdx`; fuel bounds the iteration count). -/
def senniScan (pos : Position) (cuteChessWorkaround : Bool) (keyHistory : List Nat)
    (endIdx : Int) : Int → Int → Nat → SennichiteStatus
  | _, _, 0 => SennichiteStatus.kNone
  | i, repetitions, fuel + 1 =>
    if i < endIdx then SennichiteStatus.kNone
    else if keyHistory.getD i.toNat 0 = pos.key then
      if repetitions - 1 = 0 then senniTerminal pos cuteChessWorkaround
      else senniScan pos cuteChessWorkaround keyHistory endIdx (i - 2) (repetitions - 1) fuel
    else senniScan pos cuteChessWorkaround keyHistory endIdx (i - 2) repetitions fuel

/-- `Position::testSennichite`. -/
def Position.testSennichite (pos : Position) (cuteChessWorkaround : Bool)
    (keyHistory : List Nat) (limit : Int) : SennichiteStatus :=
  let size : Int := keyHistory.length
  let endIdx : Int := max 0 (size - limit - 1)
  senniScan pos cuteChessWorkaround keyHistory endIdx (size - 4) 1 (keyHistory.length + 1)

/-! ### Pseudo-legality (position.cpp) -/

/-- The `getPromoRequiredZone` lambda inside `Position::isPseudolegal`. -/
def getPromoRequiredZone (stm pt : Nat) : Nat :=
  let zone := if pt = ptPawn || pt = ptLance || pt = ptKnight then relativeRank stm 8 else 0
  if pt = ptKnight then zone ||| relativeRank stm 7 else zone

/-- `Position::isPseudolegal`. -/
def Position.isPseudolegal (pos : Position) (move : Nat) : Bool :=
  let stm := pos.stm
  let occ := pos.occupancy
  if mIsDrop move then
    if handCount (pos.hand stm) (mDropPiece move) == 0 then false
    else if getSquare occ (mTo move) then false
    else if getSquare (getPromoRequiredZone stm (mDropPiece move)) (mTo move) then false
    else if mDropPiece move == ptPawn &&
        getSquare (fillFile (pos.pieceBb ptPawn stm)) (mTo move) then false
    else true
  else
    let moving := pos.pieceOn (mFrom move)
    if moving == pieceNone || pieceColor moving != stm then false
    else
      let captured := pos.pieceOn (mTo move)
      if captured != pieceNone && (pieceColor captured == stm || pieceType captured == ptKing) then
        false
      else if mIsPromo move then
        if !canPromotePt (pieceType moving) then false
        else if !getSquare (promoArea stm) (mFrom move) && !getSquare (promoArea stm) (mTo move) then
          false
        else getSquare (pieceAttacks (pieceType moving) (mFrom move) stm occ) (mTo move)
      else
        if getSquare (getPromoRequiredZone stm (pieceType moving)) (mTo move) then false
        else getSquare (pieceAttacks (pieceType moving) (mFrom move) stm occ) (mTo move)

/-! ### Move generation (movegen.cpp)

Move lists are Lean lists; the serialisation loops walk `popLsb`
sequences, which `bitList` reproduces. -/

def serializeNormalsOff (offset : Int) (attacks : Nat) : List Nat :=
  (bitList attacks 128).map (fun t => makeNormal (sqOffset t (-offset)) t)

def serializePromosOff (offset : Int) (attacks : Nat) : List Nat :=
  (bitList attacks 128).map (fun t => makePromotion (sqOffset t (-offset)) t)

def serializeNormalsFrom (f attacks : Nat) : List Nat :=
  (bitList attacks 128).map (fun t => makeNormal f t)

def serializePromosFrom (f attacks : Nat) : List Nat :=
  (bitList attacks 128).map (fun t => makePromotion f t)

def serializeDrops (pt targets : Nat) : List Nat :=
  (bitList targets 128).map (fun t => makeDrop pt t)

/-- `generatePrecalculatedWithColorAndOcc` (the other three wrappers just
specialise the attack getter). -/
def genPrecalc (canPromo : Bool) (pos : Position) (pieces : Nat)
    (attackGetter : Nat → Nat → Nat → Nat) (dstMask nonPromoMask : Nat) : List Nat :=
  let stm := pos.stm
  let occ := pos.occupancy
  let promoPart :=
    if canPromo then
      let pa := promoArea stm
      ((bitList pieces 128).flatMap
        (fun p => serializePromosFrom p (attackGetter p stm occ &&& dstMask &&& pa))) ++
      ((bitList (pieces &&& pa) 128).flatMap
        (fun p => serializePromosFrom p (attackGetter p stm occ &&& dstMask &&& bbNot pa)))
    else []
  promoPart ++
    (bitList pieces 128).flatMap
      (fun p => serializeNormalsFrom p (attackGetter p stm occ &&& dstMask &&& nonPromoMask))

def generatePawns (pos : Position) (dstMask : Nat) : List Nat :=
  let stm := pos.stm
  let pawns := pos.pieceBb ptPawn stm
  let shifted := shiftNorthRelative stm pawns &&& dstMask
  let promos := shifted &&& promoArea stm
  let nonPromos := shifted &&& bbNot (relativeRank stm 8)
  let offset := relativeOffset stm offNorth
  serializePromosOff offset promos ++ serializeNormalsOff offset nonPromos

def generateLances (pos : Position) (dstMask : Nat) : List Nat :=
  genPrecalc true pos (pos.pieceBb ptLance pos.stm) (fun sq c occ => lanceAttacks sq c occ)
    dstMask (bbNot (relativeRank pos.stm 8))

def generateKnights (pos : Position) (dstMask : Nat) : List Nat :=
  genPrecalc true pos (pos.pieceBb ptKnight pos.stm) (fun sq c _ => knightAttacks sq c)
    dstMask (bbNot (relativeRank pos.stm 8 ||| relativeRank pos.stm 7))

def generateSilvers (pos : Position) (dstMask : Nat) : List Nat :=
  genPrecalc true pos (pos.pieceBb ptSilver pos.stm) (fun sq c _ => silverAttacks sq c) dstMask kAll

def generateGolds (pos : Position) (dstMask : Nat) : List Nat :=
  let stm := pos.stm
  let golds := pos.pieceBb ptGold stm ||| pos.pieceBb ptPromotedPawn stm |||
    pos.pieceBb ptPromotedLance stm ||| pos.pieceBb ptPromotedKnight stm |||
    pos.pieceBb ptPromotedSilver stm
  genPrecalc false pos golds (fun sq c _ => goldAttacks sq c) dstMask kAll

def generateBishops (pos : Position) (dstMask : Nat) : List Nat :=
  genPrecalc true pos (pos.pieceBb ptBishop pos.stm) (fun sq _ occ => bishopAttacks sq occ)
    dstMask kAll

def generateRooks (pos : Position) (dstMask : Nat) : List Nat :=
  genPrecalc true pos (pos.pieceBb ptRook pos.stm) (fun sq _ occ => rookAttacks sq occ) dstMask kAll

def generatePromotedBishops (pos : Position) (dstMask : Nat) : List Nat :=
  genPrecalc false pos (pos.pieceBb ptPromotedBishop pos.stm)
    (fun sq _ occ => promotedBishopAttacks sq occ) dstMask kAll

def generatePromotedRooks (pos : Position) (dstMask : Nat) : List Nat :=
  genPrecalc false pos (pos.pieceBb ptPromotedRook pos.stm)
    (fun sq _ occ => promotedRookAttacks sq occ) dstMask kAll

def generateKings (pos : Position) (dstMask : Nat) : List Nat :=
  genPrecalc false pos (pos.pieceBb ptKing pos.stm) (fun sq _ _ => kingAttacks sq) dstMask kAll

def generateDrops (pos : Position) (dstMask : Nat) : List Nat :=
  if dstMask = 0 then []
  else
    let stm := pos.stm
    let hand := pos.hand stm
    if handEmpty hand then []
    else
      let gen := fun (pt restriction : Nat) =>
        if handCount hand pt > 0 then serializeDrops pt (dstMask &&& restriction) else []
      gen ptPawn (bbNot (relativeRank stm 8) &&& bbNot (fillFile (pos.pieceBb ptPawn stm))) ++
      gen ptLance (bbNot (relativeRank stm 8)) ++
      gen ptKnight (bbNot (relativeRank stm 8 ||| relativeRank stm 7)) ++
      gen ptSilver kAll ++ gen ptGold kAll ++ gen ptBishop kAll ++ gen ptRook kAll

/-- `movegen::generate<kGenerateDrops>`. -/
def generateMoves (drops : Bool) (pos : Position) (dstMask0 : Nat) : List Nat :=
  let kingsList := generateKings pos dstMask0
  if bbMultiple pos.mCheckers then kingsList
  else
    let dropMask0 := dstMask0 &&& bbNot pos.occupancy
    let masks :=
      if pos.mCheckers != 0 then
        let checker := bbLsb pos.mCheckers
        let checkRay := rayBetween (pos.king pos.stm) checker
        (dstMask0 &&& (checkRay ||| sqBit checker), dropMask0 &&& checkRay)
      else (dstMask0, dropMask0)
    let dstMask := masks.1
    let dropMask := masks.2
    kingsList ++ generatePawns pos dstMask ++ generateLances pos dstMask ++
    generateKnights pos dstMask ++ generateSilvers pos dstMask ++ generateGolds pos dstMask ++
    generateBishops pos dstMask ++ generateRooks pos dstMask ++
    generatePromotedBishops pos dstMask ++ generatePromotedRooks pos dstMask ++
    (if drops then generateDrops pos dropMask else [])

/-- `movegen::generateAll`. -/
def generateAll (pos : Position) : List Nat :=
  generateMoves true pos (bbNot (pos.colorBb pos.stm))

/-- `movegen::generateCaptures`. -/
def generateCaptures (pos : Position) : List Nat :=
  generateMoves false pos (pos.colorBb (colorFlip pos.stm))

/-! ### Legality (position.cpp)

`Position::isLegal` recurses through `applyMove`/`generateAll` on
check-giving pawn drops; each recursion step moves a pawn from a hand to
the board, so the C++ recursion depth is bounded by the total number of
pawns.  The embedding makes that bound an explicit fuel parameter. -/

def Position.isLegalFuel : Nat → Position → Nat → Bool
  | 0, _, _ => false
  | fuel + 1, pos, move =>
    let stm := pos.stm
    let nstm := colorFlip stm
    let stmKing := pos.king stm
    if mIsDrop move then
      if pos.isInCheck && bbMultiple pos.mCheckers then false
      else if pos.isInCheck &&
          !getSquare (rayBetween stmKing (bbLsb pos.mCheckers)) (mTo move) then false
      else if mDropPiece move == ptPawn &&
          shiftNorthRelative stm (sqBit (mTo move)) &&& pos.pieceBb ptKing nstm != 0 then
        let newPos := pos.applyMove move
        (generateAll newPos).any (fun newMove => Position.isLegalFuel fuel newPos newMove)
      else true
    else if pieceType (pos.pieceOn (mFrom move)) == ptKing then
      let kinglessOcc := pos.occupancy ^^^ pos.pieceBb ptKing stm
      !pos.isAttacked (mTo move) nstm kinglessOcc
    else if bbMultiple pos.mCheckers then false
    else if getSquare pos.mPinned (mFrom move) &&
        !getSquare (rayIntersecting (mFrom move) stmKing) (mTo move) then false
    else if pos.isInCheck &&
        !getSquare (rayBetween stmKing (bbLsb pos.mCheckers) ||| sqBit (bbLsb pos.mCheckers))
          (mTo move) then false
    else true

/-- `Position::isLegal` (40 units of fuel cover the 36-pawn recursion bound). -/
def Position.isLegal (pos : Position) (move : Nat) : Bool := Position.isLegalFuel 40 pos move

/-! ### Static exchange evaluation (see.h / see.cpp) -/

def pieceValue (pt : Nat) : Int :=
  if pt = ptPawn then 100
  else if pt = ptPromotedPawn then 1000
  else if pt = ptLance then 400
  else if pt = ptKnight then 500
  else if pt = ptPromotedLance then 900
  else if pt = ptPromotedKnight then 900
  else if pt = ptSilver then 600
  else if pt = ptPromotedSilver then 800
  else if pt = ptGold then 800
  else if pt = ptBishop then 1100
  else if pt = ptRook then 1300
  else if pt = ptPromotedBishop then 1500
  else if pt = ptPromotedRook then 1700
  else 0

/-- `see::gain`. -/
def seeGain (pos : Position) (move : Nat) : Int :=
  if mIsDrop move then pieceValue (mDropPiece move)
  else
    let captured := pos.pieceOn (mTo move)
    let g := pieceValue (pieceTypeOrNone captured)
    if mIsPromo move then
      let moving := pos.pieceOn (mFrom move)
      g + pieceValue (promotedPt (pieceType moving)) - pieceValue (pieceType moving)
    else g

/-- `kOrderedPieces`: piece types in ascending value order (value*1000+id
tiebreak, king forced last), as produced by the sort in `see.cpp`. -/
def kOrderedPieces : List Nat :=
  [ptPawn, ptLance, ptKnight, ptSilver, ptPromotedSilver, ptGold, ptPromotedLance,
   ptPromotedKnight, ptPromotedPawn, ptBishop, ptRook, ptPromotedBishop, ptPromotedRook, ptKing]

def popLVList (pos : Position) (attackers c occ : Nat) : List Nat → Nat × Nat
  | [] => (occ, ptNone)
  | pt :: rest =>
    let ptAttackers := attackers &&& pos.pieceBb pt c
    if ptAttackers != 0 then (occ ^^^ isolateLsb ptAttackers, pt)
    else popLVList pos attackers c occ rest

/-- `see::popLeastValuable`: updated occupancy and the chosen piece type. -/
def popLeastValuable (pos : Position) (occ attackers c : Nat) : Nat × Nat :=
  popLVList pos attackers c occ kOrderedPieces

def canMoveDiagonally (pt : Nat) : Bool :=
  pt = ptPromotedLance || pt = ptPromotedKnight || pt = ptSilver || pt = ptPromotedSilver ||
  pt = ptGold || pt = ptBishop || pt = ptPromotedBishop || pt = ptPromotedRook

def canMoveOrthogonally (pt : Nat) : Bool :=
  pt = ptPawn || pt = ptLance || pt = ptPromotedLance || pt = ptPromotedKnight || pt = ptSilver ||
  pt = ptPromotedSilver || pt = ptGold || pt = ptRook || pt = ptPromotedBishop || pt = ptPromotedRook

/-- The swap-off loop of `see::see`; returns the final `curr` colour. -/
def seeLoop (pos : Position) (sq bishops rooks : Nat) :
    Nat → Int → Nat → Nat → Nat → Nat
  | 0, _, _, _, curr => curr
  | fuel + 1, score, occ, attackers, curr =>
    let currAttackers := attackers &&& pos.colorBb curr
    if currAttackers = 0 then curr
    else
      let r := popLeastValuable pos occ attackers curr
      let occ2 := r.1
      let next := r.2
      let attackers1 :=
        if canMoveDiagonally next then attackers ||| (bishopAttacks sq occ2 &&& bishops)
        else attackers
      let attackers2 :=
        if canMoveOrthogonally next then attackers1 ||| (rookAttacks sq occ2 &&& rooks)
        else attackers1
      let attackers3 := attackers2 &&& occ2
      let score2 := -score - 1 - pieceValue next
      let curr2 := colorFlip curr
      if score2 ≥ 0 then
        if next == ptKing && attackers3 &&& pos.colorBb curr2 != 0 then curr else curr2
      else seeLoop pos sq bishops rooks fuel score2 occ2 attackers3 curr2

/-- `see::see`. -/
def see (pos : Position) (move : Nat) (threshold : Int) : Bool :=
  let stm := pos.stm
  let score0 := seeGain pos move - threshold
  if score0 < 0 then false
  else
    let next := if mIsDrop move then mDropPiece move else pieceType (pos.pieceOn (mFrom move))
    let score1 := score0 - pieceValue next
    if score1 ≥ 0 then true
    else
      let sq := mTo move
      let occ := pos.occupancy ^^^ sqBit (mFrom move) ^^^ sqBit sq
      let bishops := pos.pieceTypeBb ptBishop ||| pos.pieceTypeBb ptPromotedBishop
      let rooks := pos.pieceTypeBb ptRook ||| pos.pieceTypeBb ptPromotedRook
      let attackers := pos.allAttackersTo sq occ
      let finalCurr := seeLoop pos sq bishops rooks 40 score1 occ attackers (colorFlip stm)
      finalCurr != stm

/-! ### Transposition table (ttable.h / ttable.cpp) -/

def kScoreInf : Int := 32767
def kScoreMate : Int := 32766
def kScoreWin : Int := 25000
def kMaxDepth : Nat := 255
def kScoreMaxMate : Int := kScoreMate - kMaxDepth

inductive TtFlag where
  | kNone
  | kUpperBound
  | kLowerBound
  | kExact
deriving DecidableEq

def scoreToTt (score ply : Int) : Int :=
  if score < -kScoreWin then score - ply
  else if score > kScoreWin then score + ply
  else score

def scoreFromTt (score ply : Int) : Int :=
  if score < -kScoreWin then score + ply
  else if score > kScoreWin then score - ply
  else score

def packEntryKey (key : Nat) : Nat := key % 2 ^ 16

/-- `static_cast<i16>` wrap semantics. -/
def toI16 (x : Int) : Int := (x + 2 ^ 15).emod (2 ^ 16) - 2 ^ 15

structure TtEntry where
  key : Nat
  score : Int
  move : Nat
  depth : Nat
  flag : TtFlag

structure ProbedEntry where
  score : Int
  depth : Nat
  move : Nat
  flag : TtFlag

structure TTable where
  entries : Nat → TtEntry
  entryCount : Nat

/-- `TTable::index`: widening multiply, top 64 bits. -/
def ttIndex (t : TTable) (key : Nat) : Nat := (key * t.entryCount) >>> 64

/-- `TTable::probe` as defined in ttable.cpp (fills score, depth and flag
on a key match; the `move` field of `dst` is left untouched). -/
def ttProbe (t : TTable) (dst : ProbedEntry) (key : Nat) (ply : Int) : Bool × ProbedEntry :=
  let entry := t.entries (ttIndex t key)
  if entry.key = packEntryKey key then
    (true, { dst with score := scoreFromTt entry.score ply, depth := entry.depth, flag := entry.flag })
  else (false, dst)

/-- `TTable::put` as defined in ttable.cpp: `(key, score, depth, ply, flag)`;
the entry's `move` field is copied from the previous entry unchanged. -/
def ttPut (t : TTable) (key : Nat) (score : Int) (depth : Nat) (ply : Int) (flag : TtFlag) :
    TTable :=
  let i := ttIndex t key
  let entry := t.entries i
  let newEntry := { entry with
    key := packEntryKey key
    score := toI16 (scoreToTt score ply)
    depth := depth % 256
    flag := flag }
  { t with entries := fun j => if j = i then newEntry else t.entries j }

/-- Entry count after `TTable::resize(mib)`. -/
def ttResizeCount (mib : Nat) : Nat := mib * 1024 * 1024 / 8

def ttZeroEntry : TtEntry := ⟨0, 0, 0, 0, TtFlag.kNone⟩

/-- A table of the given size after `TTable::clear`. -/
def ttCleared (count : Nat) : TTable := ⟨fun _ => ttZeroEntry, count⟩

/-! ### SFEN parsing (position.cpp) -/

def isDigitChar (c : Char) : Bool := '0' ≤ c && c ≤ '9'

def digitVal (c : Char) : Nat := c.toNat - '0'.toNat

/-- `Piece::unpromotedFromChar`. -/
def pieceUnpromotedFromChar (c : Char) : Nat :=
  if c = 'P' then withColor ptPawn 0
  else if c = 'p' then withColor ptPawn 1
  else if c = 'L' then withColor ptLance 0
  else if c = 'l' then withColor ptLance 1
  else if c = 'N' then withColor ptKnight 0
  else if c = 'n' then withColor ptKnight 1
  else if c = 'S' then withColor ptSilver 0
  else if c = 's' then withColor ptSilver 1
  else if c = 'G' then withColor ptGold 0
  else if c = 'g' then withColor ptGold 1
  else if c = 'B' then withColor ptBishop 0
  else if c = 'b' then withColor ptBishop 1
  else if c = 'R' then withColor ptRook 0
  else if c = 'r' then withColor ptRook 1
  else if c = 'K' then withColor ptKing 0
  else if c = 'k' then withColor ptKing 1
  else pieceNone

/-- `Piece::fromStr`. -/
def pieceFromStr (s : List Char) : Nat :=
  if s = [] then pieceNone
  else
    let s := if s.length = 2 && s.headD ' ' = ' ' then s.drop 1 else s
    if (s.length ≠ 1 && s.length ≠ 2) || (s.length = 2 && s.headD ' ' ≠ '+') then pieceNone
    else
      let piece := pieceUnpromotedFromChar (s.getLastD ' ')
      if s.length = 2 then piecePromoted piece else piece

/-- Modelled from the spec: `util::split` (util/split.h is not among the
sources) — split a character list on a delimiter, keeping empty segments. -/
def splitCharAux (delim : Char) : List Char → List Char → List (List Char)
  | [], acc => [acc.reverse]
  | c :: rest, acc =>
    if c = delim then acc.reverse :: splitCharAux delim rest []
    else splitCharAux delim rest (c :: acc)

def splitChar (delim : Char) (l : List Char) : List (List Char) := splitCharAux delim l []

/-- The per-rank character loop of `Position::fromSfenParts`. -/
def parseRankChars (pos : Position) (rankIdx : Nat) :
    List Char → Nat → Except String (Position × Nat)
  | [], fileIdx => Except.ok (pos, fileIdx)
  | c :: rest, fileIdx =>
    if isDigitChar c then parseRankChars pos rankIdx rest (fileIdx + digitVal c)
    else if c = '+' then
      match rest with
      | [] => Except.error "+ found at end of rank with no matching piece"
      | c2 :: rest2 =>
        let piece := pieceFromStr ['+', c2]
        if piece ≠ pieceNone then
          parseRankChars (pos.addPiece (fromFileRank fileIdx (8 - rankIdx)) piece) rankIdx rest2
            (fileIdx + 1)
        else Except.error "invalid promoted piece"
    else
      let piece := pieceFromStr [c]
      if piece ≠ pieceNone then
        parseRankChars (pos.addPiece (fromFileRank fileIdx (8 - rankIdx)) piece) rankIdx rest
          (fileIdx + 1)
      else Except.error "invalid piece char"

/-- The rank loop of `Position::fromSfenParts`. -/
def parseRanks (pos : Position) (rankIdx : Nat) : List (List Char) → Except String Position
  | [] => Except.ok pos
  | r :: rest =>
    match parseRankChars pos rankIdx r 0 with
    | Except.error e => Except.error e
    | Except.ok x =>
      if x.2 = 9 then parseRanks x.1 (rankIdx + 1) rest
      else Except.error "wrong number of files in rank"

/-- The hand-descriptor loop of `Position::fromSfenParts` (fuel bounds the
character count; callers supply the string length). -/
def parseHandChars (pos : Position) : Nat → List Char → Nat → Except String Position
  | _, [], _ => Except.ok pos
  | 0, _ :: _, _ => Except.error "out of fuel"
  | fuel + 1, c :: rest, nextCount =>
    if isDigitChar c then
      match rest with
      | [] => Except.error "piece count found at end of hand with no matching piece"
      | c2 :: rest2 =>
        if isDigitChar c2 then
          if rest2 = [] then
            Except.error "piece count found at end of hand with no matching piece"
          else
            let n := digitVal c * 10 + digitVal c2
            if n = 0 then Except.error "0 found in hand" else parseHandChars pos fuel rest2 n
        else
          let n := digitVal c
          if n = 0 then Except.error "0 found in hand" else parseHandChars pos fuel rest n
    else
      let piece := pieceUnpromotedFromChar c
      if piece ≠ pieceNone then
        parseHandChars
          { pos with
            mHands := updAt pos.mHands (pieceColor piece)
              (handSet (pos.mHands (pieceColor piece)) (pieceType piece) nextCount) }
          fuel rest 1
      else Except.error "invalid piece found in hand"

/-- `util::tryParse<u16>` via `std::from_chars`: parses the leading digit
run; fails when there is no leading digit or the value exceeds the u16
range (standard-library semantics). -/
def tryParseU16 (s : String) : Option Nat :=
  let ds := s.toList.takeWhile isDigitChar
  if ds = [] then none
  else
    let v := ds.foldl (fun acc c => acc * 10 + digitVal c) 0
    if v > 65535 then none else some v

/-- `Position::regenKey`. -/
def Position.regenKey (pos : Position) : Position :=
  let k1 := (bitList pos.occupancy 128).foldl
    (fun acc sq => acc ^^^ keyPieceSquare (pos.pieceOn sq) sq) 0
  let k2 := if pos.stm = 1 then k1 ^^^ keyStm else k1
  let k3 := [0, 1].foldl
    (fun acc c =>
      kHandPieces.foldl (fun acc2 pt => acc2 ^^^ keyPieceInHand c pt (handCount (pos.hand c) pt))
        acc)
    k2
  { pos with mKeys := k3 }

/-- `Position::fromSfenParts` (parts already split on whitespace). -/
def fromSfenParts (parts : List String) : Except String Position :=
  if parts.length < 3 || parts.length > 4 then Except.error "wrong number of SFEN parts"
  else
    let ranks := splitChar '/' (parts.getD 0 "").toList
    if ranks.length ≠ 9 then Except.error "wrong number of ranks in SFEN"
    else
      match parseRanks emptyPosition 0 ranks with
      | Except.error e => Except.error e
      | Except.ok pos =>
        if popcount128 (pos.pieceBbOf (withColor ptKing 0)) ≠ 1 then
          Except.error "black must have exactly 1 king"
        else if popcount128 (pos.pieceBbOf (withColor ptKing 1)) ≠ 1 then
          Except.error "white must have exactly 1 king"
        else
          let stmStr := parts.getD 1 ""
          if stmStr ≠ "b" && stmStr ≠ "w" then Except.error "invalid side to move"
          else
            let pos1 := { pos with mStm := if stmStr = "b" then 0 else 1 }
            let handStr := parts.getD 2 ""
            match
              (if handStr = "-" then Except.ok pos1
               else parseHandChars pos1 handStr.length handStr.toList 1) with
            | Except.error e => Except.error e
            | Except.ok pos2 =>
              match
                (if parts.length = 4 then tryParseU16 (parts.getD 3 "")
                 else some pos2.mMoveCount) with
              | none => Except.error "invalid move count"
              | some count =>
                let pos3 := { pos2 with mMoveCount := count }
                let pos4 := pos3.regenKey.updateAttacks
                let pos5 :=
                  if pos4.isInCheck then
                    { pos4 with
                      mConsecutiveChecks := updAt pos4.mConsecutiveChecks pos4.stm 1 }
                  else pos4
                Except.ok pos5

/-- `Position::fromSfen`: whitespace split, then `fromSfenParts`.  The
splitter `util::split` is not part of the sources; modelled from the spec
as splitting on spaces with empty tokens dropped. -/
def fromSfen (sfen : String) : Except String Position :=
  fromSfenParts (((splitChar ' ' sfen.toList).filter (fun s => s ≠ [])).map
    (fun cs => String.mk cs))

/-- Convenience: the position parsed from SFEN parts (meaningful only when
parsing succeeds). -/
def posOfSfen (parts : List String) : Position :=
  match fromSfenParts parts with
  | Except.ok p => p
  | Except.error _ => emptyPosition

/-- `Position::regen`: rebuild the mailbox from the bitboards, then
`regenKey` and `updateAttacks`. -/
def Position.regen (pos : Position) : Position :=
  let mb := (List.range 28).foldl
    (fun mbAcc pieceIdx =>
      (bitList (pos.pieceBbOf pieceIdx) 128).foldl (fun mb2 sq => updAt mb2 sq pieceIdx) mbAcc)
    (fun _ => pieceNone)
  ({ pos with mMailbox := mb }).regenKey.updateAttacks

def startposPiecesList : List Nat :=
  [toU128 0 0x7fc0000007fc0000, 0, toU128 0x10100 0x101, toU128 0x8200 0x82, 0, 0,
   toU128 0x4400 0x44, 0, toU128 0x2800 0x28, toU128 0x40 0x400, toU128 0x1 0x10000, 0, 0,
   toU128 0x1000 0x10]

/-- `Position::startpos`. -/
def startpos : Position :=
  Position.regen
    { emptyPosition with
      mColors := fun c => [toU128 0 0x7fd05ff, toU128 0x1ff41 0x7fc0000000000000].getD c 0
      mPieces := fun t => startposPiecesList.getD t 0 }

/-! ### Invariant predicates and claim-specific concrete inputs -/

/-- "Bits above index 80 are zero" (the spec's bitboard invariant). -/
def highClear (bb : Nat) : Prop := ∀ i, 80 < i → bb.testBit i = false

/-- Black to move; the rook move 1i1a (`makeNormal 8 80`) gives check. -/
def c3pos : Position := posOfSfen ["4k4/9/9/9/9/9/9/9/4K3R", "b", "-", "1"]

def c3move : Nat := makeNormal 8 80

def c3child : Position := c3pos.applyMove c3move

/-- White to move and in double check; white holds a pawn. -/
def c7pos : Position := posOfSfen ["B8/9/9/9/4k4/9/9/9/K3R4", "w", "p", "1"]

/-- The pawn drop 9h (square 9), giving check to the black king on 9i. -/
def c7move : Nat := makeDrop ptPawn 9

def c7child : Position := c7pos.applyMove c7move

/-- Black to move with a pawn in hand; `P*5b` gives check but not mate. -/
def c7witPos : Position := posOfSfen ["4k4/9/9/9/9/9/9/9/4K4", "b", "P", "1"]

def c7witMove : Nat := makeDrop ptPawn 67

def c7witChild : Position := c7witPos.applyMove c7witMove

/-- Black bishop on 6f captures the white rook on 5e, which is defended
only by the white pawn on 5d; black additionally attacks 5e with the pawn
on 5f. -/
def c9pos : Position := posOfSfen ["8k/9/9/4p4/4r4/3BP4/9/9/K8", "b", "-", "1"]

def c9move : Nat := makeNormal 30 40

/-- Same, but without the extra black pawn: the bishop is black's only
attacker of 5e. -/
def c9witPos : Position := posOfSfen ["8k/9/9/4p4/4r4/3B5/9/9/K8", "b", "-", "1"]

/-- SFEN parts with a 19-pawn black hand (capacity is 18). -/
def c5parts : List String := ["8k/9/9/9/9/9/9/9/K8", "b", "19P", "1"]

/-- A 1-MiB table after `clear`, as allocated by `resize(1)`/`finalize`. -/
def c2table0 : TTable := ttCleared (ttResizeCount 1)

/-- The table after `put(key = 0xdeadbeef, score = 123, depth = 7, ply = 0, Exact)`. -/
def c2table1 : TTable := ttPut c2table0 0xdeadbeef 123 7 0 TtFlag.kExact

/-- A value-initialised `tt::ProbedEntry` (as the caller in search.cpp
creates it before probing). -/
def c2probeInit : ProbedEntry := ⟨0, 0, 0, TtFlag.kNone⟩

def c2probeResult : Bool × ProbedEntry := ttProbe c2table1 c2probeInit 0xdeadbeef 3

/-- The move `P*5e`. -/
def c2moveP5e : Nat := makeDrop ptPawn 40

/-- Whether an SFEN parse succeeded. -/
def sfenOk (e : Except String Position) : Bool :=
  match e with
  | Except.ok _ => true
  | Except.error _ => false

/-- The position representation invariant assumed by `generate_all`
soundness: the side to move is a colour, the colour and piece-type
bitboards are 81-bit and agree square-by-square with the mailbox, mailbox
entries are encoded pieces or none, and no piece of the side to move
attacks the square of the opposing king (true of every position reachable
by legal play, since capturing the king is never legal). -/
def Valid (pos : Position) : Prop :=
  pos.mStm < 2 ∧
  (∀ c, c < 2 → pos.mColors c < 2 ^ 81) ∧
  (∀ pt, pt < 14 → pos.mPieces pt < 2 ^ 81) ∧
  (∀ c, c < 2 → ∀ i, i < 81 →
    (pos.mColors c).testBit i =
      (pos.mMailbox i != pieceNone && pieceColor (pos.mMailbox i) == c)) ∧
  (∀ pt, pt < 14 → ∀ i, i < 81 →
    (pos.mPieces pt).testBit i =
      (pos.mMailbox i != pieceNone && pieceType (pos.mMailbox i) == pt)) ∧
  (∀ i, i < 81 → pos.mMailbox i ≤ pieceNone) ∧
  (∀ pt, pt < 14 → ∀ sq, sq < 81 → (pos.pieceBb pt pos.stm).testBit sq = true →
    pieceAttacks pt sq pos.stm pos.occupancy &&& pos.pieceBb ptKing (colorFlip pos.stm) = 0)

/-! ## Theorems -/

set_option maxRecDepth 100000
set_option maxHeartbeats 3200000

theorem senniTerminal_ne_none (pos : Position) (cc : Bool) :
    senniTerminal pos cc ≠ SennichiteStatus.kNone := by
  unfold senniTerminal
  split <;> split <;> simp

theorem sennichiteStatus_ne_none_iff (s : SennichiteStatus) :
    s ≠ SennichiteStatus.kNone ↔ (s = SennichiteStatus.kDraw ∨ s = SennichiteStatus.kWin) := by
  cases s <;> simp

/-- The scan with a repetition budget of 1 is terminal exactly when some
scanned index (same parity as the start, at least `endIdx`) holds the
current key. -/
theorem senniScan_one_ne_none (pos : Position) (cc : Bool) (hist : List Nat) (endIdx : Int) :
    ∀ (fuel : Nat) (i : Int), i - endIdx < 2 * fuel →
      (senniScan pos cc hist endIdx i 1 fuel ≠ SennichiteStatus.kNone ↔
        ∃ j : Int, endIdx ≤ j ∧ j ≤ i ∧ (i - j) % 2 = 0 ∧ hist.getD j.toNat 0 = pos.key) := by
  intro fuel
  induction fuel with
  | zero =>
    intro i hi
    simp only [senniScan, ne_eq, not_true_eq_false, false_iff, not_exists]
    intro j hj
    omega
  | succ fuel ih =>
    intro i hi
    by_cases h1 : i < endIdx
    · simp only [senniScan, if_pos h1, ne_eq, not_true_eq_false, false_iff, not_exists]
      intro j hj
      omega
    · by_cases h2 : hist.getD i.toNat 0 = pos.key
      · have hr : (1 : Int) - 1 = 0 := by norm_num
        simp only [senniScan, if_neg h1, if_pos h2, if_pos hr]
        constructor
        · intro _
          exact ⟨i, le_of_not_lt h1, le_refl i, by omega, h2⟩
        · intro _
          exact senniTerminal_ne_none pos cc
      · have hr : ¬((1 : Int) - 1 = 0) ∨ True := Or.inr trivial
        simp only [senniScan, if_neg h1, if_neg h2]
        rw [ih (i - 2) (by omega)]
        constructor
        · rintro ⟨j, hj1, hj2, hj3, hj4⟩
          exact ⟨j, hj1, by omega, by omega, hj4⟩
        · rintro ⟨j, hj1, hj2, hj3, hj4⟩
          by_cases hji : j = i
          · exact absurd (hji ▸ hj4) h2
          · exact ⟨j, hj1, by omega, by omega, hj4⟩

/-- `testSennichite` in terms of the scanned index set (Nat indices). -/
theorem testSennichite_ne_none_iff (pos : Position) (cc : Bool) (hist : List Nat) (L : Int) :
    pos.testSennichite cc hist L ≠ SennichiteStatus.kNone ↔
      ∃ j : Nat, j < hist.length ∧ max 0 ((hist.length : Int) - L - 1) ≤ (j : Int) ∧
        (j : Int) ≤ (hist.length : Int) - 4 ∧ ((hist.length : Int) - (j : Int)) % 2 = 0 ∧
        hist.getD j 0 = pos.key := by
  unfold Position.testSennichite
  rw [senniScan_one_ne_none pos cc hist _ (hist.length + 1) ((hist.length : Int) - 4) (by omega)]
  constructor
  · rintro ⟨j, hj1, hj2, hj3, hj4⟩
    have hj0 : 0 ≤ j := le_trans (le_max_left 0 _) hj1
    refine ⟨j.toNat, by omega, ?_, by omega, by omega, ?_⟩
    · omega
    · exact hj4
  · rintro ⟨j, hj1, hj2, hj3, hj4, hj5⟩
    refine ⟨(j : Int), hj2, hj3, by omega, ?_⟩
    simpa using hj5

/-- C1 (counterexample): a position (the default-constructed `Position`,
whose key is 0) and a history in which the current key occurs exactly once
among the scanned same-parity entries, yet `testSennichite` is terminal
(`kDraw`), where the claim demands three prior occurrences for a terminal
result and `kNone` with fewer. -/
theorem testSennichite_terminal_after_single_occurrence :
    (emptyPosition.testSennichite false [emptyPosition.key, 1, 2, 3] 16 =
        SennichiteStatus.kDraw) ∧
      [emptyPosition.key, 1, 2, 3].getD 0 0 = emptyPosition.key ∧
      (∀ j : Nat, j < 4 → j ≠ 0 →
        [emptyPosition.key, 1, 2, 3].getD j 0 ≠ emptyPosition.key) := by
  refine ⟨by decide, rfl, by decide⟩

/-- C1 (amended): `testSennichite` returns a terminal status (`kDraw` or
`kWin`) iff the current position's key occurs at least once among the
scanned same-side-to-move history entries (indices of the same parity as
the history length, at most four plies back, within the scan window);
with zero such occurrences it returns `kNone`. -/
theorem testSennichite_terminal_iff_occurrence (pos : Position) (cc : Bool) (hist : List Nat)
    (L : Int) :
    (pos.testSennichite cc hist L = SennichiteStatus.kDraw ∨
        pos.testSennichite cc hist L = SennichiteStatus.kWin) ↔
      ∃ j : Nat, j < hist.length ∧ max 0 ((hist.length : Int) - L - 1) ≤ (j : Int) ∧
        (j : Int) ≤ (hist.length : Int) - 4 ∧ ((hist.length : Int) - (j : Int)) % 2 = 0 ∧
        hist.getD j 0 = pos.key := by
  rw [← sennichiteStatus_ne_none_iff]
  exact testSennichite_ne_none_iff pos cc hist L

/-- C10: `testSennichite` with scan limit `L` compares the current key only
against same-parity history entries from four plies back down to the most
recent `L+1` entries; when no such entry matches, the result is `kNone`. -/
theorem testSennichite_kNone_outside_window (pos : Position) (cc : Bool) (hist : List Nat)
    (L : Int)
    (h : ∀ j : Nat, j < hist.length → max 0 ((hist.length : Int) - L - 1) ≤ (j : Int) →
      (j : Int) ≤ (hist.length : Int) - 4 → ((hist.length : Int) - (j : Int)) % 2 = 0 →
      hist.getD j 0 ≠ pos.key) :
    pos.testSennichite cc hist L = SennichiteStatus.kNone := by
  by_contra hne
  obtain ⟨j, hj1, hj2, hj3, hj4, hj5⟩ := (testSennichite_ne_none_iff pos cc hist L).mp hne
  exact h j hj1 hj2 hj3 hj4 hj5

theorem testSennichite_kNone_outside_window_witness :
    emptyPosition.testSennichite false [1, 2, 3, 4] 16 = SennichiteStatus.kNone :=
  testSennichite_kNone_outside_window emptyPosition false [1, 2, 3, 4] 16 (by decide)

/-- C2: the transposition-table round trip loses the stored move.  After
`put(key = 0xdeadbeef, score = 123, move = P*5e, depth = 7, ply = 0,
Exact)` (the implementation in ttable.cpp takes no move argument at all),
`probe(key, ply = 3)` finds the entry and returns score 123, depth 7 and
flag Exact, but the probed move is the null move, not `P*5e`. -/
theorem ttable_roundtrip_loses_move :
    c2probeResult.1 = true ∧ c2probeResult.2.score = 123 ∧ c2probeResult.2.depth = 7 ∧
      c2probeResult.2.flag = TtFlag.kExact ∧ c2probeResult.2.move = 0 ∧
      mIsNull c2probeResult.2.move = true ∧ c2moveP5e ≠ 0 := by
  refine ⟨by decide, by decide, by decide, by decide, by decide, by decide, by decide⟩

/-! ### Bit-level toolkit -/

theorem testBit_false_of_lt_of_le {x n i : Nat} (h : x < 2 ^ n) (hi : n ≤ i) :
    x.testBit i = false :=
  Nat.testBit_lt_two_pow (lt_of_lt_of_le h (Nat.pow_le_pow_right (by norm_num) hi))

theorem highClear_iff_lt (x : Nat) : highClear x ↔ x < 2 ^ 81 := by
  constructor
  · intro h
    exact Nat.lt_pow_two_of_testBit x (fun i hi => h i (by omega))
  · intro h i hi
    exact testBit_false_of_lt_of_le h (by omega)

theorem land_lt_left {x : Nat} (y : Nat) {n : Nat} (h : x < 2 ^ n) : x &&& y < 2 ^ n := by
  refine Nat.lt_pow_two_of_testBit _ (fun i hi => ?_)
  rw [Nat.testBit_land, testBit_false_of_lt_of_le h hi, Bool.false_and]

theorem land_lt_right (x : Nat) {y n : Nat} (h : y < 2 ^ n) : x &&& y < 2 ^ n := by
  refine Nat.lt_pow_two_of_testBit _ (fun i hi => ?_)
  rw [Nat.testBit_land, testBit_false_of_lt_of_le h hi, Bool.and_false]

theorem lor_lt {x y n : Nat} (hx : x < 2 ^ n) (hy : y < 2 ^ n) : x ||| y < 2 ^ n := by
  refine Nat.lt_pow_two_of_testBit _ (fun i hi => ?_)
  rw [Nat.testBit_lor, testBit_false_of_lt_of_le hx hi, testBit_false_of_lt_of_le hy hi]
  rfl

theorem xor_lt {x y n : Nat} (hx : x < 2 ^ n) (hy : y < 2 ^ n) : x ^^^ y < 2 ^ n := by
  refine Nat.lt_pow_two_of_testBit _ (fun i hi => ?_)
  rw [Nat.testBit_xor, testBit_false_of_lt_of_le hx hi, testBit_false_of_lt_of_le hy hi]
  rfl

theorem shr_lt {x n : Nat} (k : Nat) (h : x < 2 ^ n) : x >>> k < 2 ^ n := by
  refine Nat.lt_pow_two_of_testBit _ (fun i hi => ?_)
  rw [Nat.testBit_shiftRight]
  exact testBit_false_of_lt_of_le h (by omega)

theorem kAll_lt : kAll < 2 ^ 81 := by decide

/-- A masked left shift keeps the result inside 81 bits provided the mask
covers all bit positions that the shift would push past index 80. -/
theorem shl_masked_lt {x : Nat} (M s : Nat) (hx : x < 2 ^ 81)
    (hM : ∀ j, j < 81 → 81 ≤ j + s → M.testBit j = true) :
    shl128 (x &&& unot128 M) s < 2 ^ 81 := by
  refine Nat.lt_pow_two_of_testBit _ (fun i hi => ?_)
  unfold shl128
  rw [Nat.testBit_mod_two_pow]
  by_cases h128 : i < 128
  · rw [Nat.testBit_shiftLeft]
    by_cases hs : s ≤ i
    · have hland : (x &&& unot128 M).testBit (i - s) = false := by
        by_cases hj : i - s < 81
        · have hMj : M.testBit (i - s) = true := hM (i - s) hj (by omega)
          have hnot : (unot128 M).testBit (i - s) = false := by
            unfold unot128
            rw [Nat.testBit_xor, hMj, Nat.testBit_two_pow_sub_one]
            have h' : i - s < 128 := by omega
            simp [h']
          rw [Nat.testBit_land, hnot, Bool.and_false]
        · rw [Nat.testBit_land, testBit_false_of_lt_of_le hx (by omega), Bool.false_and]
      rw [hland]
      simp
    · have h' : ¬(i ≥ s) := hs
      simp [h']
  · simp [h128]

theorem shiftNorth_lt {x : Nat} (hx : x < 2 ^ 81) : shiftNorth x < 2 ^ 81 :=
  shl_masked_lt kRankA 9 hx (by decide)

theorem shiftEast_lt {x : Nat} (hx : x < 2 ^ 81) : shiftEast x < 2 ^ 81 :=
  shl_masked_lt kFile1 1 hx (by decide)

theorem shiftNorthWest_lt {x : Nat} (hx : x < 2 ^ 81) : shiftNorthWest x < 2 ^ 81 :=
  shl_masked_lt (kRankA ||| kFile9) 8 hx (by decide)

theorem shiftNorthEast_lt {x : Nat} (hx : x < 2 ^ 81) : shiftNorthEast x < 2 ^ 81 :=
  shl_masked_lt (kRankA ||| kFile1) 10 hx (by decide)

theorem shiftSouth_lt {x : Nat} (hx : x < 2 ^ 81) : shiftSouth x < 2 ^ 81 := shr_lt 9 hx

theorem shiftWest_lt {x : Nat} (hx : x < 2 ^ 81) : shiftWest x < 2 ^ 81 :=
  shr_lt 1 (land_lt_left _ hx)

theorem shiftSouthWest_lt {x : Nat} (hx : x < 2 ^ 81) : shiftSouthWest x < 2 ^ 81 :=
  shr_lt 10 (land_lt_left _ hx)

theorem shiftSouthEast_lt {x : Nat} (hx : x < 2 ^ 81) : shiftSouthEast x < 2 ^ 81 :=
  shr_lt 8 (land_lt_left _ hx)

/-- C6 (counterexample): the plain left shift does not re-mask the board:
shifting the bitboard containing square 80 left by one sets bit 81. -/
theorem bitboard_shl_breaks_invariant :
    highClear (sqBit 80) ∧ (bbShl (sqBit 80) 1).testBit 81 = true := by
  constructor
  · exact (highClear_iff_lt _).mpr (by decide)
  · decide

/-- C6 (amended): every listed public `Bitboard` operation except the raw
left shift preserves "bits above index 80 are zero": the binary bitwise
operators, the complement, right shifts by any amount, the eight
directional shifts (and their colour-relative forms), and the fills.  The
raw left shift `operator<<` can violate it (see the counterexample). -/
theorem bitboard_ops_preserve_invariant (a b : Nat) (ha : highClear a) (hb : highClear b) :
    highClear (a &&& b) ∧ highClear (a ||| b) ∧ highClear (a ^^^ b) ∧ highClear (bbNot a) ∧
      (∀ n, highClear (bbShr a n)) ∧
      highClear (shiftNorth a) ∧ highClear (shiftSouth a) ∧ highClear (shiftWest a) ∧
      highClear (shiftEast a) ∧ highClear (shiftNorthWest a) ∧ highClear (shiftNorthEast a) ∧
      highClear (shiftSouthWest a) ∧ highClear (shiftSouthEast a) ∧
      (∀ c, highClear (shiftNorthRelative c a) ∧ highClear (shiftSouthRelative c a) ∧
        highClear (shiftWestRelative c a) ∧ highClear (shiftEastRelative c a) ∧
        highClear (shiftNorthWestRelative c a) ∧ highClear (shiftNorthEastRelative c a)) ∧
      highClear (fillUp a) ∧ highClear (fillDown a) ∧ highClear (fillFile a) := by
  have ha' := (highClear_iff_lt a).mp ha
  have hb' := (highClear_iff_lt b).mp hb
  have cl : ∀ {x : Nat}, x < 2 ^ 81 → highClear x := fun h => (highClear_iff_lt _).mpr h
  refine ⟨cl (land_lt_left b ha'), cl (lor_lt ha' hb'), cl (xor_lt ha' hb'),
    cl (land_lt_right _ kAll_lt), fun n => cl (shr_lt n ha'),
    cl (shiftNorth_lt ha'), cl (shiftSouth_lt ha'), cl (shiftWest_lt ha'),
    cl (shiftEast_lt ha'), cl (shiftNorthWest_lt ha'), cl (shiftNorthEast_lt ha'),
    cl (shiftSouthWest_lt ha'), cl (shiftSouthEast_lt ha'), ?_,
    cl (land_lt_right _ kAll_lt), cl (land_lt_right _ kAll_lt),
    cl (lor_lt (land_lt_right _ kAll_lt) (land_lt_right _ kAll_lt))⟩
  intro c
  by_cases hc : c = 0 <;>
    simp only [shiftNorthRelative, shiftSouthRelative, shiftWestRelative, shiftEastRelative,
      shiftNorthWestRelative, shiftNorthEastRelative, hc, if_pos, if_neg, if_true, if_false] <;>
    exact ⟨cl (by first
        | exact shiftNorth_lt ha' | exact shiftSouth_lt ha'),
      cl (by first | exact shiftNorth_lt ha' | exact shiftSouth_lt ha'),
      cl (by first | exact shiftWest_lt ha' | exact shiftEast_lt ha'),
      cl (by first | exact shiftWest_lt ha' | exact shiftEast_lt ha'),
      cl (by first | exact shiftNorthWest_lt ha' | exact shiftSouthEast_lt ha'),
      cl (by first | exact shiftNorthEast_lt ha' | exact shiftSouthWest_lt ha')⟩

theorem bitboard_ops_preserve_invariant_witness :
    highClear (kAll &&& kRankA) ∧ highClear (bbNot kAll) := by
  have h := bitboard_ops_preserve_invariant kAll kRankA
    ((highClear_iff_lt kAll).mpr (by decide)) ((highClear_iff_lt kRankA).mpr (by decide))
  exact ⟨h.1, h.2.2.2.1⟩

/-! ### C4: legality versus pseudo-legality -/

/-- C4 (counterexample): at the starting position the pawn drop `P*5e` is
accepted by `isLegal` (which assumes pseudo-legality) although black's
hand is empty, so `isPseudolegal` rejects it. -/
theorem isLegal_does_not_imply_isPseudolegal :
    startpos.isLegal (makeDrop ptPawn 40) = true ∧
      startpos.isPseudolegal (makeDrop ptPawn 40) = false := by
  exact ⟨by decide, by decide⟩

/-- C4 (amended): for moves that are pseudo-legal in `P` — the documented
precondition of `isLegal` — `isLegal` implies `isPseudolegal`. -/
theorem isLegal_implies_isPseudolegal_on_pseudolegal (pos : Position) (m : Nat)
    (hp : pos.isPseudolegal m = true) (hl : pos.isLegal m = true) :
    pos.isPseudolegal m = true := hp

theorem isLegal_implies_isPseudolegal_on_pseudolegal_witness :
    startpos.isPseudolegal (makeNormal 24 33) = true :=
  isLegal_implies_isPseudolegal_on_pseudolegal startpos (makeNormal 24 33) (by decide) (by decide)

/-! ### C3: consecutive-check counters in `applyMove` -/

theorem updAt_same (f : Nat → Nat) (i v : Nat) : updAt f i v i = v := by simp [updAt]

theorem updAt_other (f : Nat → Nat) {i j : Nat} (v : Nat) (h : j ≠ i) : updAt f i v j = f j := by
  simp [updAt, h]

theorem colorFlip_ne (c : Nat) : colorFlip c ≠ c := by
  intro h
  have h0 := congrArg (fun x => x.testBit 0) h
  simp only [colorFlip, Nat.testBit_xor] at h0
  simp at h0

theorem movePiece_cc (pos : Position) (f t p : Nat) :
    (pos.movePiece f t p).mConsecutiveChecks = pos.mConsecutiveChecks := by
  simp only [Position.movePiece]
  split <;> rfl

theorem movePiece_stm (pos : Position) (f t p : Nat) : (pos.movePiece f t p).mStm = pos.mStm := by
  simp only [Position.movePiece]
  split <;> rfl

theorem promotePiece_cc (pos : Position) (f t p : Nat) :
    (pos.promotePiece f t p).mConsecutiveChecks = pos.mConsecutiveChecks := by
  simp only [Position.promotePiece]
  split <;> rfl

theorem promotePiece_stm (pos : Position) (f t p : Nat) :
    (pos.promotePiece f t p).mStm = pos.mStm := by
  simp only [Position.promotePiece]
  split <;> rfl

theorem applyMoveBoard_cc (pos : Position) (m : Nat) :
    (pos.applyMoveBoard m).mConsecutiveChecks = pos.mConsecutiveChecks := by
  simp only [Position.applyMoveBoard]
  split
  · rfl
  · split
    · exact promotePiece_cc pos _ _ _
    · exact movePiece_cc pos _ _ _

theorem applyMoveBoard_stm (pos : Position) (m : Nat) :
    (pos.applyMoveBoard m).mStm = pos.mStm := by
  simp only [Position.applyMoveBoard]
  split
  · rfl
  · split
    · exact promotePiece_stm pos _ _ _
    · exact movePiece_stm pos _ _ _

theorem updateAttacks_cc (pos : Position) :
    pos.updateAttacks.mConsecutiveChecks = pos.mConsecutiveChecks := rfl

theorem updateAttacks_stm (pos : Position) : pos.updateAttacks.mStm = pos.mStm := rfl

theorem updateAttacks_checkers (pos : Position) :
    pos.updateAttacks.mCheckers = pos.attackersTo (pos.king pos.stm) (colorFlip pos.stm) := rfl

theorem applyMove_isInCheck (pos : Position) (m : Nat) :
    (pos.applyMove m).isInCheck = (pos.applyMovePre m).isInCheck := by
  simp only [Position.applyMove]
  split <;> rfl

theorem applyMove_stm_eq (pos : Position) (m : Nat) :
    (pos.applyMove m).mStm = (pos.applyMovePre m).mStm := by
  simp only [Position.applyMove]
  split <;> rfl

theorem applyMove_cc_eq (pos : Position) (m : Nat) :
    (pos.applyMove m).mConsecutiveChecks =
      updAt (pos.applyMovePre m).mConsecutiveChecks (pos.applyMovePre m).stm
        (if (pos.applyMovePre m).isInCheck then
          (pos.applyMovePre m).mConsecutiveChecks (pos.applyMovePre m).stm + 1
         else 0) := by
  simp only [Position.applyMove]
  split
  · rename_i hchk
    have hchk2 : (pos.applyMovePre m).isInCheck = true := hchk
    rw [if_pos hchk2]
    rfl
  · rename_i hchk
    have hchk2 : ¬((pos.applyMovePre m).isInCheck = true) := hchk
    rw [if_neg hchk2]
    rfl

theorem applyMovePre_stm (pos : Position) (m : Nat) :
    (pos.applyMovePre m).mStm = colorFlip pos.mStm := by
  unfold Position.applyMovePre
  rw [updateAttacks_stm]
  show colorFlip (pos.applyMoveBoard m).mStm = colorFlip pos.mStm
  rw [applyMoveBoard_stm]

theorem applyMovePre_cc (pos : Position) (m : Nat) :
    (pos.applyMovePre m).mConsecutiveChecks = pos.mConsecutiveChecks := by
  unfold Position.applyMovePre
  rw [updateAttacks_cc]
  exact applyMoveBoard_cc pos m

/-- C3 (counterexample): black plays the checking rook move 1i1a; both
consecutive-check counters start at zero, the resulting position has its
side to move (white) in check, yet the mover's (black's) counter stays 0
while white's counter becomes 1 — the code updates the checked side's
counter, not the mover's. -/
theorem applyMove_updates_checked_side_not_mover :
    c3pos.isPseudolegal c3move = true ∧ c3pos.isLegal c3move = true ∧ c3pos.stm = 0 ∧
      c3pos.mConsecutiveChecks 0 = 0 ∧ c3pos.mConsecutiveChecks 1 = 0 ∧
      c3child.isInCheck = true ∧ c3child.mConsecutiveChecks 0 = 0 ∧
      c3child.mConsecutiveChecks 1 = 1 := by
  refine ⟨by decide, by decide, by decide, by decide, by decide, by decide, by decide, by decide⟩

/-- C3 (amended): `applyMove` updates the consecutive-check counter of the
side to move in the *resulting* position (the opponent of the mover):
incremented when that side is in check, zeroed otherwise; the mover's own
counter is unchanged. -/
theorem applyMove_consecutive_checks (pos : Position) (m : Nat)
    (hp : pos.isPseudolegal m = true) (hl : pos.isLegal m = true) :
    (pos.applyMove m).stm = colorFlip pos.stm ∧
      (pos.applyMove m).mConsecutiveChecks (colorFlip pos.stm) =
        (if (pos.applyMove m).isInCheck then pos.mConsecutiveChecks (colorFlip pos.stm) + 1
         else 0) ∧
      (pos.applyMove m).mConsecutiveChecks pos.stm = pos.mConsecutiveChecks pos.stm := by
  have hstmPre : (pos.applyMovePre m).stm = colorFlip pos.mStm := applyMovePre_stm pos m
  have hccPre := applyMovePre_cc pos m
  refine ⟨?_, ?_, ?_⟩
  · show (pos.applyMove m).mStm = colorFlip pos.mStm
    rw [applyMove_stm_eq]
    exact hstmPre
  · show (pos.applyMove m).mConsecutiveChecks (colorFlip pos.mStm) = _
    rw [applyMove_cc_eq, applyMove_isInCheck, hstmPre, hccPre, updAt_same]
    rfl
  · show (pos.applyMove m).mConsecutiveChecks pos.mStm = pos.mConsecutiveChecks pos.mStm
    rw [applyMove_cc_eq, hstmPre, hccPre,
      updAt_other _ _ (Ne.symm (colorFlip_ne pos.mStm))]

theorem applyMove_consecutive_checks_witness :
    (c3pos.applyMove c3move).stm = colorFlip c3pos.stm ∧
      (c3pos.applyMove c3move).mConsecutiveChecks (colorFlip c3pos.stm) =
        (if (c3pos.applyMove c3move).isInCheck then
          c3pos.mConsecutiveChecks (colorFlip c3pos.stm) + 1
         else 0) ∧
      (c3pos.applyMove c3move).mConsecutiveChecks c3pos.stm =
        c3pos.mConsecutiveChecks c3pos.stm :=
  applyMove_consecutive_checks c3pos c3move (by decide) (by decide)

/-! ### C5: SFEN parsing — king counts and hand capacities -/

theorem parseHandChars_colors_pieces :
    ∀ (fuel : Nat) (l : List Char) (cnt : Nat) (pos q : Position),
      parseHandChars pos fuel l cnt = Except.ok q →
      q.mColors = pos.mColors ∧ q.mPieces = pos.mPieces := by
  intro fuel
  induction fuel with
  | zero =>
    intro l cnt pos q h
    cases l with
    | nil =>
      simp only [parseHandChars, Except.ok.injEq] at h
      rw [← h]
      exact ⟨rfl, rfl⟩
    | cons c rest => simp [parseHandChars] at h
  | succ fuel ih =>
    intro l cnt pos q h
    cases l with
    | nil =>
      simp only [parseHandChars, Except.ok.injEq] at h
      rw [← h]
      exact ⟨rfl, rfl⟩
    | cons c rest =>
      simp only [parseHandChars] at h
      split at h
      · split at h
        · simp at h
        · split at h
          · split at h
            · simp at h
            · split at h
              · simp at h
              · exact ih _ _ pos q h
          · split at h
            · simp at h
            · exact ih _ _ pos q h
      · split at h
        · have hr := ih rest 1 _ q h
          exact ⟨hr.1, hr.2⟩
        · simp at h

/-- C5 (amended, part 1): every successful SFEN parse yields a position
with exactly one king of each colour — `fromSfenParts` rejects king-count
violations before any further processing. -/
theorem fromSfenParts_ok_one_king_each (parts : List String) (pos : Position)
    (h : fromSfenParts parts = Except.ok pos) :
    popcount128 (pos.pieceBbOf (withColor ptKing 0)) = 1 ∧
      popcount128 (pos.pieceBbOf (withColor ptKing 1)) = 1 := by
  simp only [fromSfenParts] at h
  split at h
  · simp at h
  · split at h
    · simp at h
    · split at h
      · simp at h
      · rename_i posB hb
        split at h
        · simp at h
        · split at h
          · simp at h
          · split at h
            · simp at h
            · rename_i hk1 hk2 hs
              split at h
              · simp at h
              · rename_i pos2 hh
                have hcp : pos2.mColors = posB.mColors ∧ pos2.mPieces = posB.mPieces := by
                  revert hh
                  split
                  · intro hh
                    simp only [Except.ok.injEq] at hh
                    rw [← hh]
                    exact ⟨rfl, rfl⟩
                  · intro hh
                    have hr := parseHandChars_colors_pieces _ _ _ _ _ hh
                    exact ⟨hr.1, hr.2⟩
                split at h
                · simp at h
                · rename_i count hmc
                  simp only [Except.ok.injEq] at h
                  have hfinal : pos.mColors = pos2.mColors ∧ pos.mPieces = pos2.mPieces := by
                    rw [← h]
                    constructor <;> (split <;> rfl)
                  have e1 : pos.pieceBbOf (withColor ptKing 0) =
                      posB.pieceBbOf (withColor ptKing 0) := by
                    unfold Position.pieceBbOf
                    rw [hfinal.1, hfinal.2, hcp.1, hcp.2]
                  have e2 : pos.pieceBbOf (withColor ptKing 1) =
                      posB.pieceBbOf (withColor ptKing 1) := by
                    unfold Position.pieceBbOf
                    rw [hfinal.1, hfinal.2, hcp.1, hcp.2]
                  rw [e1, e2]
                  exact ⟨by omega, by omega⟩

theorem fromSfenParts_ok_one_king_each_witness :
    popcount128 ((posOfSfen c5parts).pieceBbOf (withColor ptKing 0)) = 1 ∧
      popcount128 ((posOfSfen c5parts).pieceBbOf (withColor ptKing 1)) = 1 :=
  fromSfenParts_ok_one_king_each c5parts (posOfSfen c5parts) (by rfl)

/-- C5 (counterexample): the SFEN hand field `19P` — nineteen pawns, one
more than the capacity of 18 — parses successfully; the count is stored
verbatim in the hand.  `fromSfenParts` never validates hand capacities. -/
theorem fromSfenParts_accepts_oversized_hand :
    sfenOk (fromSfenParts c5parts) = true ∧
      handCount ((posOfSfen c5parts).hand 0) ptPawn = 19 := by
  exact ⟨by decide, by decide⟩

/-- C7 (counterexample): in `c7pos` white is in double check; the pawn drop
`c7move` is pseudo-legal and the dropped pawn attacks the black king, yet
`isLegal` rejects it even though the resulting position still has a legal
reply for the opponent.  The double-check early exit fires before the
pawn-drop-mate recursion, so "rejected iff no legal reply" fails. -/
theorem isLegal_checking_pawn_drop_counterexample :
    c7pos.isPseudolegal c7move = true ∧
      mIsDrop c7move = true ∧
      mDropPiece c7move = ptPawn ∧
      (shiftNorthRelative c7pos.stm (sqBit (mTo c7move)) &&&
        c7pos.pieceBb ptKing (colorFlip c7pos.stm) != 0) = true ∧
      c7pos.isLegal c7move = false ∧
      (generateAll c7child).any (fun mv => c7child.isLegal mv) = true := by
  refine ⟨by decide, by decide, by decide, by decide, by decide, by decide⟩

/-- C7: for a pawn drop that gives immediate check and passes the evasion
filters (either the side to move is not in check, or it is in single check
and the drop square blocks the checking ray), `isLegal` equals "the
resulting position admits some legal reply for the opponent" — in
particular a mating checking pawn drop is rejected, a non-mating one is
accepted.  The equation is stated at each fuel level of the embedded
recursion (`isLegal` is `isLegalFuel 40`). -/
theorem isLegal_checking_pawn_drop (pos : Position) (m fuel : Nat)
    (hd : mIsDrop m = true)
    (hp : (mDropPiece m == ptPawn &&
        (shiftNorthRelative pos.stm (sqBit (mTo m)) &&&
          pos.pieceBb ptKing (colorFlip pos.stm) != 0)) = true)
    (hev : pos.isInCheck = false ∨
        (bbMultiple pos.mCheckers = false ∧
          getSquare (rayBetween (pos.king pos.stm) (bbLsb pos.mCheckers)) (mTo m) = true)) :
    Position.isLegalFuel (fuel + 1) pos m =
      (generateAll (pos.applyMove m)).any
        (fun mv => Position.isLegalFuel fuel (pos.applyMove m) mv) := by
  simp only [Position.isLegalFuel, hd]
  rcases hev with h | ⟨h1, h2⟩
  · simp [h, hp]
  · simp [h1, h2, hp]

/-- The amended C7 rule at a concrete input: at `c7witPos` the checking pawn
drop `c7witMove` satisfies the hypotheses (black is not in check), and the
unrolling equation holds; moreover both sides evaluate to `true` — the drop
is not mate, so it is accepted. -/
theorem isLegal_checking_pawn_drop_witness :
    Position.isLegalFuel 40 c7witPos c7witMove =
      (generateAll c7witChild).any (fun mv => Position.isLegalFuel 39 c7witChild mv) ∧
      Position.isLegalFuel 40 c7witPos c7witMove = true :=
  ⟨isLegal_checking_pawn_drop c7witPos c7witMove 39 (by decide) (by decide)
      (Or.inl (by decide)),
    by decide⟩

theorem colorFlip_colorFlip (c : Nat) : colorFlip (colorFlip c) = c := by
  simp [colorFlip, Nat.xor_assoc]

/-- The swap-off loop returns the current colour when that colour has no
attacker left on the target square. -/
theorem seeLoop_stop (pos : Position) (sq bishops rooks fuel : Nat) (score : Int)
    (occ attackers curr : Nat)
    (h : attackers &&& pos.colorBb curr = 0) :
    seeLoop pos sq bishops rooks (fuel + 1) score occ attackers curr = curr := by
  simp only [seeLoop]
  rw [if_pos h]

/-- One swap-off iteration in which every attacker of the current colour is
a pawn (so the pawn is the popped least-valuable piece) and the running
score stays negative after the pawn recapture. -/
theorem seeLoop_pawn_step (pos : Position) (sq bishops rooks fuel : Nat) (score : Int)
    (occ attackers curr : Nat)
    (hall : attackers &&& pos.colorBb curr = attackers &&& pos.pieceBb ptPawn curr)
    (hne : attackers &&& pos.pieceBb ptPawn curr ≠ 0)
    (hsc : -score - 1 - 100 < 0) :
    seeLoop pos sq bishops rooks (fuel + 1) score occ attackers curr =
      seeLoop pos sq bishops rooks fuel (-score - 1 - 100)
        (occ ^^^ isolateLsb (attackers &&& pos.pieceBb ptPawn curr))
        ((attackers |||
            (rookAttacks sq (occ ^^^ isolateLsb (attackers &&& pos.pieceBb ptPawn curr)) &&& rooks)) &&&
          (occ ^^^ isolateLsb (attackers &&& pos.pieceBb ptPawn curr)))
        (colorFlip curr) := by
  have hpop : popLeastValuable pos occ attackers curr =
      (occ ^^^ isolateLsb (attackers &&& pos.pieceBb ptPawn curr), ptPawn) := by
    have hb2 : (attackers &&& pos.pieceBb ptPawn curr != 0) = true := bne_iff_ne.mpr hne
    simp only [popLeastValuable, kOrderedPieces, popLVList, hb2, if_true]
  have hcd : canMoveDiagonally ptPawn = false := by decide
  have hco : canMoveOrthogonally ptPawn = true := by decide
  have hpw : pieceValue ptPawn = (100 : Int) := by decide
  simp only [seeLoop, hall, hpop, hcd, hco, hpw, Bool.false_eq_true, if_false, if_true]
  rw [if_neg hne, if_neg (by omega : ¬(-score - 1 - 100 ≥ (0 : Int)))]

/-- C9 (counterexample): in `c9pos` the black bishop on 6f captures the
white rook on 5e, whose sole white defender is the pawn on 5d — exactly the
claim's setup — yet `see` at threshold 250 returns `true`, not `false`:
black has a second attacker (the pawn on 5f), so after pxB black recaptures
and the exchange nets 300 ≥ 250.  The claim ignores further attackers of
the side to move. -/
theorem see_threshold_claim_counterexample :
    mIsDrop c9move = false ∧
      mIsPromo c9move = false ∧
      pieceTypeOrNone (c9pos.pieceOn (mTo c9move)) = ptRook ∧
      pieceType (c9pos.pieceOn (mFrom c9move)) = ptBishop ∧
      c9pos.attackersTo (mTo c9move) (colorFlip c9pos.stm) = sqBit 49 ∧
      pieceType (c9pos.pieceOn 49) = ptPawn ∧
      see c9pos c9move 0 = true ∧
      see c9pos c9move 250 = true := by
  refine ⟨by decide, by decide, by decide, by decide, by decide, by decide, by decide, by decide⟩

/-- C9: bishop takes rook on a square whose defenders (attackers of the
victim's colour, computed on the occupancy without the bishop and the rook)
are all pawns and at least one exists, and after the pawn recapture the
capturing side has no further attacker of the square (including any rook
x-ray opened by the pawn's disappearance): then `see(move, 0) = true` and
`see(move, 250) = false`.  The values traced are 1300 (rook) − 1100
(bishop) = 200: above threshold 0, below threshold 250. -/
theorem see_bishop_takes_rook_defended_by_pawn (pos : Position) (m : Nat)
    (hnd : mIsDrop m = false)
    (hnp : mIsPromo m = false)
    (hcap : pieceTypeOrNone (pos.pieceOn (mTo m)) = ptRook)
    (hmov : pieceType (pos.pieceOn (mFrom m)) = ptBishop)
    (hdef : pos.allAttackersTo (mTo m) (pos.occupancy ^^^ sqBit (mFrom m) ^^^ sqBit (mTo m)) &&&
        pos.colorBb (colorFlip pos.stm) =
      pos.allAttackersTo (mTo m) (pos.occupancy ^^^ sqBit (mFrom m) ^^^ sqBit (mTo m)) &&&
        pos.pieceBb ptPawn (colorFlip pos.stm))
    (hne : pos.allAttackersTo (mTo m) (pos.occupancy ^^^ sqBit (mFrom m) ^^^ sqBit (mTo m)) &&&
        pos.pieceBb ptPawn (colorFlip pos.stm) ≠ 0)
    (hnomore : ((pos.allAttackersTo (mTo m) (pos.occupancy ^^^ sqBit (mFrom m) ^^^ sqBit (mTo m)) |||
          (rookAttacks (mTo m)
              ((pos.occupancy ^^^ sqBit (mFrom m) ^^^ sqBit (mTo m)) ^^^
                isolateLsb
                  (pos.allAttackersTo (mTo m)
                      (pos.occupancy ^^^ sqBit (mFrom m) ^^^ sqBit (mTo m)) &&&
                    pos.pieceBb ptPawn (colorFlip pos.stm))) &&&
            (pos.pieceTypeBb ptRook ||| pos.pieceTypeBb ptPromotedRook))) &&&
        ((pos.occupancy ^^^ sqBit (mFrom m) ^^^ sqBit (mTo m)) ^^^
          isolateLsb
            (pos.allAttackersTo (mTo m)
                (pos.occupancy ^^^ sqBit (mFrom m) ^^^ sqBit (mTo m)) &&&
              pos.pieceBb ptPawn (colorFlip pos.stm)))) &&&
        pos.colorBb pos.stm = 0) :
    see pos m 0 = true ∧ see pos m 250 = false := by
  have hg : seeGain pos m = 1300 := by
    simp [seeGain, hnd, hnp, hcap]
    decide
  have hnext : (if mIsDrop m then mDropPiece m else pieceType (pos.pieceOn (mFrom m))) = ptBishop := by
    simp [hnd, hmov]
  have hb : pieceValue ptBishop = (1100 : Int) := by decide
  constructor
  · simp only [see, hg, hnext, hb]
    norm_num
  · simp only [see, hg, hnext, hb]
    norm_num
    rw [show (40 : Nat) = 39 + 1 from rfl,
      seeLoop_pawn_step pos (mTo m)
        (pos.pieceTypeBb ptBishop ||| pos.pieceTypeBb ptPromotedBishop)
        (pos.pieceTypeBb ptRook ||| pos.pieceTypeBb ptPromotedRook) 39 (-50)
        (pos.occupancy ^^^ sqBit (mFrom m) ^^^ sqBit (mTo m))
        (pos.allAttackersTo (mTo m) (pos.occupancy ^^^ sqBit (mFrom m) ^^^ sqBit (mTo m)))
        (colorFlip pos.stm) hdef hne (by norm_num),
      colorFlip_colorFlip,
      show (39 : Nat) = 38 + 1 from rfl,
      seeLoop_stop _ _ _ _ _ _ _ _ _ hnomore]

/-- The amended C9 statement at a concrete input: in `c9witPos` (the
counterexample position without black's extra pawn) the bishop-takes-rook
capture is worth 200, so it clears threshold 0 and fails threshold 250. -/
theorem see_bishop_takes_rook_defended_by_pawn_witness :
    see c9witPos c9move 0 = true ∧ see c9witPos c9move 250 = false :=
  see_bishop_takes_rook_defended_by_pawn c9witPos c9move (by decide) (by decide)
    (by decide) (by decide) (by decide) (by decide) (by decide)


theorem tb_shl128 (x n i : Nat) :
    (shl128 x n).testBit i = (decide (i < 128) && (decide (n ≤ i) && x.testBit (i - n))) := by
  rw [shl128, Nat.testBit_mod_two_pow, Nat.testBit_shiftLeft]

theorem tb_sqBit (s i : Nat) :
    (sqBit s).testBit i = (decide (i < 128) && decide (i = s)) := by
  rw [sqBit, tb_shl128, show (1 : Nat) = 2 ^ 0 from rfl, Nat.testBit_two_pow]
  by_cases h1 : i < 128 <;> by_cases h2 : s ≤ i <;> by_cases h3 : i = s <;>
    simp [h1, h2, h3] <;> omega

theorem tb_unot128 (x : Nat) {i : Nat} (h : i < 128) :
    (unot128 x).testBit i = !x.testBit i := by
  rw [unot128, Nat.testBit_xor, Nat.testBit_two_pow_sub_one]
  simp [h, Bool.xor_true]

theorem kAll_eq : kAll = 2 ^ 81 - 1 := by decide

theorem tb_kAll (i : Nat) : kAll.testBit i = decide (i < 81) := by
  rw [kAll_eq, Nat.testBit_two_pow_sub_one]

theorem getSquare_eq_testBit (bb : Nat) {s : Nat} (hs : s < 128) :
    getSquare bb s = bb.testBit s := by
  have hsb : sqBit s = 2 ^ s := by
    rw [sqBit, shl128, Nat.one_shiftLeft,
      Nat.mod_eq_of_lt (Nat.pow_lt_pow_right (by norm_num) hs)]
  rw [getSquare, hsb, Nat.and_two_pow]
  cases h : bb.testBit s <;> simp [h]

theorem testBit_bbNot {x t : Nat} (h : (bbNot x).testBit t = true) :
    t < 81 ∧ x.testBit t = false := by
  rw [bbNot, Nat.testBit_land, tb_kAll] at h
  have ht : t < 81 := by
    by_contra hc
    simp [hc] at h
  refine ⟨ht, ?_⟩
  rw [tb_unot128 x (by omega)] at h
  simp at h
  exact h.1

theorem lor_pow_eq_add (n f t : Nat) (ht : t < 2 ^ n) : t ||| f <<< n = 2 ^ n * f + t := by
  apply Nat.eq_of_testBit_eq
  intro j
  rw [Nat.testBit_lor, Nat.testBit_shiftLeft, Nat.testBit_mul_pow_two_add f ht j]
  by_cases hj : j < n
  · have : ¬(j ≥ n) := by omega
    simp [hj, this]
  · have h1 : t.testBit j = false :=
      Nat.testBit_lt_two_pow (lt_of_lt_of_le ht (Nat.pow_le_pow_right (by norm_num) (by omega)))
    have h2 : j ≥ n := by omega
    simp [hj, h1, h2]

theorem mIsDrop_eq_testBit (m : Nat) : mIsDrop m = m.testBit 15 := by
  rw [mIsDrop, Nat.and_one_is_mod, Nat.shiftRight_eq_div_pow, Nat.testBit_to_div_mod]
  have h2 : m / 2 ^ 15 % 2 = 0 ∨ m / 2 ^ 15 % 2 = 1 := by omega
  rcases h2 with h | h <;> rw [h] <;> decide

theorem mIsPromo_eq_testBit (m : Nat) : mIsPromo m = m.testBit 14 := by
  rw [mIsPromo, Nat.and_one_is_mod, Nat.shiftRight_eq_div_pow, Nat.testBit_to_div_mod]
  have h2 : m / 2 ^ 14 % 2 = 0 ∨ m / 2 ^ 14 % 2 = 1 := by omega
  rcases h2 with h | h <;> rw [h] <;> decide

theorem mTo_eq_mod (m : Nat) : mTo m = m % 2 ^ 7 := by
  rw [mTo, show (127 : Nat) = 2 ^ 7 - 1 from rfl, Nat.and_pow_two_sub_one_eq_mod]

theorem mFrom_eq (m : Nat) : mFrom m = m / 2 ^ 7 % 2 ^ 7 := by
  rw [mFrom, show (127 : Nat) = 2 ^ 7 - 1 from rfl, Nat.shiftRight_eq_div_pow,
    Nat.and_pow_two_sub_one_eq_mod]

theorem makeNormal_eq (f t : Nat) (ht : t < 128) : makeNormal f t = 2 ^ 7 * f + t := by
  rw [makeNormal]
  exact lor_pow_eq_add 7 f t ht

theorem makePromotion_eq (f t : Nat) (hf : f < 128) (ht : t < 128) :
    makePromotion f t = 2 ^ 14 + 2 ^ 7 * f + t := by
  rw [makePromotion, lor_pow_eq_add 7 f t ht, lor_pow_eq_add 14 1 _ (by omega)]
  ring

theorem dropPieceIndex_lt (pt : Nat) : dropPieceIndex pt < 8 := by
  unfold dropPieceIndex
  repeat' split
  all_goals decide

theorem makeDrop_eq (pt t : Nat) (ht : t < 128) :
    makeDrop pt t = 2 ^ 15 + 2 ^ 7 * dropPieceIndex pt + t := by
  have hi := dropPieceIndex_lt pt
  rw [makeDrop, lor_pow_eq_add 7 (dropPieceIndex pt) t ht, lor_pow_eq_add 15 1 _ (by omega)]
  ring

theorem mTo_makeNormal (f t : Nat) (ht : t < 128) : mTo (makeNormal f t) = t := by
  rw [mTo_eq_mod, makeNormal_eq f t ht]
  omega

theorem mFrom_makeNormal (f t : Nat) (hf : f < 128) (ht : t < 128) :
    mFrom (makeNormal f t) = f := by
  rw [mFrom_eq, makeNormal_eq f t ht]
  omega

theorem mIsDrop_makeNormal (f t : Nat) (hf : f < 128) (ht : t < 128) :
    mIsDrop (makeNormal f t) = false := by
  rw [mIsDrop_eq_testBit, makeNormal_eq f t ht]
  exact Nat.testBit_lt_two_pow (by omega)

theorem mIsPromo_makeNormal (f t : Nat) (hf : f < 128) (ht : t < 128) :
    mIsPromo (makeNormal f t) = false := by
  rw [mIsPromo_eq_testBit, makeNormal_eq f t ht]
  exact Nat.testBit_lt_two_pow (by omega)

theorem mTo_makePromotion (f t : Nat) (hf : f < 128) (ht : t < 128) :
    mTo (makePromotion f t) = t := by
  rw [mTo_eq_mod, makePromotion_eq f t hf ht]
  omega

theorem mFrom_makePromotion (f t : Nat) (hf : f < 128) (ht : t < 128) :
    mFrom (makePromotion f t) = f := by
  rw [mFrom_eq, makePromotion_eq f t hf ht]
  omega

theorem mIsDrop_makePromotion (f t : Nat) (hf : f < 128) (ht : t < 128) :
    mIsDrop (makePromotion f t) = false := by
  rw [mIsDrop_eq_testBit, makePromotion_eq f t hf ht]
  exact Nat.testBit_lt_two_pow (by omega)

theorem mIsPromo_makePromotion (f t : Nat) (hf : f < 128) (ht : t < 128) :
    mIsPromo (makePromotion f t) = true := by
  rw [mIsPromo_eq_testBit, makePromotion_eq f t hf ht,
    show 2 ^ 14 + 2 ^ 7 * f + t = 2 ^ 14 * 1 + (2 ^ 7 * f + t) by ring,
    Nat.testBit_mul_pow_two_add 1 (show 2 ^ 7 * f + t < 2 ^ 14 by omega) 14]
  simp

theorem mTo_makeDrop (pt t : Nat) (ht : t < 128) : mTo (makeDrop pt t) = t := by
  have hi := dropPieceIndex_lt pt
  rw [mTo_eq_mod, makeDrop_eq pt t ht]
  omega

theorem mIsDrop_makeDrop (pt t : Nat) (ht : t < 128) : mIsDrop (makeDrop pt t) = true := by
  have hi := dropPieceIndex_lt pt
  rw [mIsDrop_eq_testBit, makeDrop_eq pt t ht,
    show 2 ^ 15 + 2 ^ 7 * dropPieceIndex pt + t =
      2 ^ 15 * 1 + (2 ^ 7 * dropPieceIndex pt + t) by ring,
    Nat.testBit_mul_pow_two_add 1 (show 2 ^ 7 * dropPieceIndex pt + t < 2 ^ 15 by omega) 15]
  simp

theorem mDropPiece_makeDrop (pt t : Nat) (ht : t < 128) :
    mDropPiece (makeDrop pt t) = kDropPieces.getD (dropPieceIndex pt) ptPawn := by
  have hi := dropPieceIndex_lt pt
  have hidx : (makeDrop pt t >>> 7) &&& 7 = dropPieceIndex pt := by
    rw [show (7 : Nat) = 2 ^ 3 - 1 from rfl, Nat.shiftRight_eq_div_pow,
      Nat.and_pow_two_sub_one_eq_mod, makeDrop_eq pt t ht]
    omega
  rw [mDropPiece, hidx]

theorem withColor_eq (pt c : Nat) (hc : c < 2) : withColor pt c = 2 * pt + c := by
  rw [withColor, Nat.lor_comm, lor_pow_eq_add 1 pt c (by omega)]
  ring

theorem pieceType_withColor (pt c : Nat) (hc : c < 2) : pieceType (withColor pt c) = pt := by
  rw [pieceType, withColor_eq pt c hc, Nat.shiftRight_eq_div_pow, pow_one]
  omega

theorem pieceColor_withColor (pt c : Nat) (hc : c < 2) : pieceColor (withColor pt c) = c := by
  rw [pieceColor, withColor_eq pt c hc, Nat.and_one_is_mod]
  omega

theorem withColor_ne_none (pt c : Nat) (hpt : pt < 14) (hc : c < 2) :
    withColor pt c ≠ pieceNone := by
  rw [withColor_eq pt c hc, pieceNone]
  omega

theorem pieceColor_lt (p : Nat) : pieceColor p < 2 := by
  rw [pieceColor, Nat.and_one_is_mod]
  omega

theorem colorFlip_lt {c : Nat} (hc : c < 2) : colorFlip c < 2 := by
  rcases (by omega : c = 0 ∨ c = 1) with h | h <;> rw [colorFlip, h] <;> decide

theorem valid_mover {pos : Position} (hv : Valid pos) {pt f : Nat} (hpt : pt < 14)
    (h : (pos.pieceBb pt pos.stm).testBit f = true) :
    f < 81 ∧ pos.pieceOn f = withColor pt pos.stm := by
  obtain ⟨hstm, hcb, hpb, hcolors, hpieces, hmb, _⟩ := hv
  rw [Position.pieceBb, Nat.testBit_land, Bool.and_eq_true] at h
  have hf81 : f < 81 := by
    by_contra hc
    rw [testBit_false_of_lt_of_le (hcb pos.stm hstm) (by omega)] at h
    simp at h
  refine ⟨hf81, ?_⟩
  have h1 := hcolors pos.stm hstm f hf81
  have h2 := hpieces pt hpt f hf81
  rw [h.1, Eq.comm, Bool.and_eq_true, bne_iff_ne, beq_iff_eq] at h1
  rw [h.2, Eq.comm, Bool.and_eq_true, bne_iff_ne, beq_iff_eq] at h2
  have hcme : pos.mMailbox f % 2 = pos.stm := by
    have := h1.2
    rw [pieceColor, Nat.and_one_is_mod] at this
    exact this
  have htme : pos.mMailbox f / 2 = pt := by
    have := h2.2
    rw [pieceType, Nat.shiftRight_eq_div_pow, pow_one] at this
    exact this
  rw [Position.pieceOn, withColor_eq pt pos.stm hstm]
  omega

theorem valid_mailbox_bit {pos : Position} (hv : Valid pos) {pt c i : Nat} (hpt : pt < 14)
    (hc : c < 2) (hi : i < 81) (hmb : pos.pieceOn i = withColor pt c) :
    (pos.pieceBb pt c).testBit i = true := by
  obtain ⟨hstm, hcb, hpb, hcolors, hpieces, hmbb, _⟩ := hv
  rw [Position.pieceOn] at hmb
  rw [Position.pieceBb, Nat.testBit_land, hcolors c hc i hi, hpieces pt hpt i hi, hmb,
    pieceColor_withColor pt c hc, pieceType_withColor pt c hc]
  simp [withColor_ne_none pt c hpt hc]

theorem valid_capture {pos : Position} (hv : Valid pos) {t A : Nat}
    (ht81 : t < 81)
    (hnc : (pos.mColors pos.stm).testBit t = false)
    (hA : A.testBit t = true)
    (hAk : A &&& pos.pieceBb ptKing (colorFlip pos.stm) = 0) :
    pos.pieceOn t = pieceNone ∨
      (pieceColor (pos.pieceOn t) ≠ pos.stm ∧ pieceType (pos.pieceOn t) ≠ ptKing) := by
  by_cases hnone : pos.pieceOn t = pieceNone
  · exact Or.inl hnone
  right
  obtain ⟨hstm, hcb, hpb, hcolors, hpieces, hmb, hnka⟩ := id hv
  have hcol : pieceColor (pos.pieceOn t) ≠ pos.stm := by
    intro hceq
    have h1 := hcolors pos.stm hstm t ht81
    rw [hnc, Eq.comm, Bool.and_eq_false_iff] at h1
    rcases h1 with h1 | h1
    · rw [bne_eq_false_iff_eq] at h1
      exact hnone h1
    · rw [beq_eq_false_iff_ne] at h1
      exact h1 hceq
  refine ⟨hcol, ?_⟩
  intro hking
  have hflip : pieceColor (pos.pieceOn t) = colorFlip pos.stm := by
    have hl := pieceColor_lt (pos.pieceOn t)
    have hcf : colorFlip pos.stm = 1 - pos.mStm := by
      rcases (by omega : pos.mStm = 0 ∨ pos.mStm = 1) with h0 | h0 <;>
        rw [colorFlip, show pos.stm = pos.mStm from rfl, h0] <;> decide
    rw [hcf]
    rw [show pos.stm = pos.mStm from rfl] at hcol
    omega
  have hmbv : pos.pieceOn t = withColor ptKing (colorFlip pos.stm) := by
    have hle := hmb t ht81
    have hcm : pos.pieceOn t % 2 = colorFlip pos.stm := by
      rw [← hflip, pieceColor, Nat.and_one_is_mod]
    have htm : pos.pieceOn t / 2 = 13 := by
      rw [show (13 : Nat) = ptKing from rfl, ← hking, pieceType, Nat.shiftRight_eq_div_pow,
        pow_one]
    rw [withColor_eq ptKing (colorFlip pos.stm) (colorFlip_lt hstm), ptKing]
    rw [Position.pieceOn] at hcm htm ⊢
    rw [pieceNone] at hle
    omega
  have hbit := valid_mailbox_bit hv (show ptKing < 14 by decide)
    (show colorFlip pos.stm < 2 from colorFlip_lt hstm) ht81 hmbv
  have hz := congrArg (fun x => x.testBit t) hAk
  simp only [Nat.testBit_land, Nat.zero_testBit] at hz
  rw [hA, hbit] at hz
  simp at hz

theorem ctzFrom_testBit (v : Nat) :
    ∀ fuel i j, i ≤ j → j < i + fuel → v.testBit j = true → v.testBit (ctzFrom v i fuel) = true := by
  intro fuel
  induction fuel with
  | zero =>
    intro i j h1 h2 h3
    omega
  | succ fuel ih =>
    intro i j h1 h2 h3
    simp only [ctzFrom]
    split
    · assumption
    · rename_i hb
      by_cases hij : j = i
      · rw [hij] at h3
        exact absurd h3 hb
      · exact ih (i + 1) j (by omega) (by omega) h3

theorem exists_testBit_of_ne_zero {bb : Nat} (h : bb ≠ 0) : ∃ j, bb.testBit j = true := by
  by_contra hc
  push_neg at hc
  refine h (Nat.eq_of_testBit_eq fun i => ?_)
  rw [Nat.zero_testBit]
  exact Bool.not_eq_true _ |>.mp (hc i)

theorem bitList_subset :
    ∀ (fuel bb i : Nat), bb < 2 ^ 128 → i ∈ bitList bb fuel → bb.testBit i = true := by
  intro fuel
  induction fuel with
  | zero =>
    intro bb i hlt h
    simp [bitList] at h
  | succ fuel ih =>
    intro bb i hlt h
    rw [bitList] at h
    by_cases hz : bb = 0
    · simp [hz] at h
    · rw [if_neg hz] at h
      rcases List.mem_cons.mp h with h1 | h1
      · subst h1
        obtain ⟨j, hj⟩ := exists_testBit_of_ne_zero hz
        have hj128 : j < 128 := by
          by_contra hc
          rw [testBit_false_of_lt_of_le hlt (by omega)] at hj
          simp at hj
        rw [ctz128]
        exact ctzFrom_testBit bb 128 0 j (by omega) (by omega) hj
      · have h2 := ih (bb &&& (bb - 1)) i (land_lt_left _ hlt) h1
        rw [Nat.testBit_land, Bool.and_eq_true] at h2
        exact h2.1

theorem testBit_lt_128 {x i : Nat} (hx : x < 2 ^ 128) (h : x.testBit i = true) : i < 128 := by
  by_contra hc
  rw [testBit_false_of_lt_of_le hx (by omega)] at h
  simp at h

theorem serializeNormalsFrom_sound {f atk m : Nat} (hatk : atk < 2 ^ 128)
    (hm : m ∈ serializeNormalsFrom f atk) :
    ∃ t, atk.testBit t = true ∧ t < 128 ∧ m = makeNormal f t := by
  rw [serializeNormalsFrom] at hm
  obtain ⟨t, ht, rfl⟩ := List.mem_map.mp hm
  have hb := bitList_subset 128 atk t hatk ht
  exact ⟨t, hb, testBit_lt_128 hatk hb, rfl⟩

theorem serializePromosFrom_sound {f atk m : Nat} (hatk : atk < 2 ^ 128)
    (hm : m ∈ serializePromosFrom f atk) :
    ∃ t, atk.testBit t = true ∧ t < 128 ∧ m = makePromotion f t := by
  rw [serializePromosFrom] at hm
  obtain ⟨t, ht, rfl⟩ := List.mem_map.mp hm
  have hb := bitList_subset 128 atk t hatk ht
  exact ⟨t, hb, testBit_lt_128 hatk hb, rfl⟩

theorem serializeNormalsOff_sound {offset : Int} {atk m : Nat} (hatk : atk < 2 ^ 128)
    (hm : m ∈ serializeNormalsOff offset atk) :
    ∃ t, atk.testBit t = true ∧ t < 128 ∧ m = makeNormal (sqOffset t (-offset)) t := by
  rw [serializeNormalsOff] at hm
  obtain ⟨t, ht, rfl⟩ := List.mem_map.mp hm
  have hb := bitList_subset 128 atk t hatk ht
  exact ⟨t, hb, testBit_lt_128 hatk hb, rfl⟩

theorem serializePromosOff_sound {offset : Int} {atk m : Nat} (hatk : atk < 2 ^ 128)
    (hm : m ∈ serializePromosOff offset atk) :
    ∃ t, atk.testBit t = true ∧ t < 128 ∧ m = makePromotion (sqOffset t (-offset)) t := by
  rw [serializePromosOff] at hm
  obtain ⟨t, ht, rfl⟩ := List.mem_map.mp hm
  have hb := bitList_subset 128 atk t hatk ht
  exact ⟨t, hb, testBit_lt_128 hatk hb, rfl⟩

theorem serializeDrops_sound {pt targets m : Nat} (htg : targets < 2 ^ 128)
    (hm : m ∈ serializeDrops pt targets) :
    ∃ t, targets.testBit t = true ∧ t < 128 ∧ m = makeDrop pt t := by
  rw [serializeDrops] at hm
  obtain ⟨t, ht, rfl⟩ := List.mem_map.mp hm
  have hb := bitList_subset 128 targets t htg ht
  exact ⟨t, hb, testBit_lt_128 htg hb, rfl⟩

theorem isPseudolegal_normal (pos : Position) (f t : Nat) (hf : f < 128) (ht : t < 128)
    (hmv : pos.pieceOn f ≠ pieceNone)
    (hcol : pieceColor (pos.pieceOn f) = pos.stm)
    (hcapt : pos.pieceOn t = pieceNone ∨
      (pieceColor (pos.pieceOn t) ≠ pos.stm ∧ pieceType (pos.pieceOn t) ≠ ptKing))
    (hzone : getSquare (getPromoRequiredZone pos.stm (pieceType (pos.pieceOn f))) t = false)
    (hatk : getSquare (pieceAttacks (pieceType (pos.pieceOn f)) f pos.stm pos.occupancy) t
      = true) :
    pos.isPseudolegal (makeNormal f t) = true := by
  have hd := mIsDrop_makeNormal f t hf ht
  have hp := mIsPromo_makeNormal f t hf ht
  have hfr := mFrom_makeNormal f t hf ht
  have hto := mTo_makeNormal f t ht
  rcases hcapt with hc1 | ⟨hc2, hc3⟩
  · simp [Position.isPseudolegal, hd, hfr, hto, hp, hmv, hcol, hzone, hatk, hc1]
  · simp [Position.isPseudolegal, hd, hfr, hto, hp, hmv, hcol, hzone, hatk, hc2, hc3]

theorem isPseudolegal_promo (pos : Position) (f t : Nat) (hf : f < 128) (ht : t < 128)
    (hmv : pos.pieceOn f ≠ pieceNone)
    (hcol : pieceColor (pos.pieceOn f) = pos.stm)
    (hcapt : pos.pieceOn t = pieceNone ∨
      (pieceColor (pos.pieceOn t) ≠ pos.stm ∧ pieceType (pos.pieceOn t) ≠ ptKing))
    (hcanp : canPromotePt (pieceType (pos.pieceOn f)) = true)
    (harea : getSquare (promoArea pos.stm) f = true ∨ getSquare (promoArea pos.stm) t = true)
    (hatk : getSquare (pieceAttacks (pieceType (pos.pieceOn f)) f pos.stm pos.occupancy) t
      = true) :
    pos.isPseudolegal (makePromotion f t) = true := by
  have hd := mIsDrop_makePromotion f t hf ht
  have hp := mIsPromo_makePromotion f t hf ht
  have hfr := mFrom_makePromotion f t hf ht
  have hto := mTo_makePromotion f t hf ht
  rcases hcapt with hc1 | ⟨hc2, hc3⟩ <;> rcases harea with ha | ha
  · simp [Position.isPseudolegal, hd, hfr, hto, hp, hmv, hcol, hcanp, ha, hatk, hc1]
  · simp [Position.isPseudolegal, hd, hfr, hto, hp, hmv, hcol, hcanp, ha, hatk, hc1]
  · simp [Position.isPseudolegal, hd, hfr, hto, hp, hmv, hcol, hcanp, ha, hatk, hc2, hc3]
  · simp [Position.isPseudolegal, hd, hfr, hto, hp, hmv, hcol, hcanp, ha, hatk, hc2, hc3]

theorem isPseudolegal_drop (pos : Position) (pt t : Nat) (ht : t < 128)
    (hdp : mDropPiece (makeDrop pt t) = pt)
    (hhand : handCount (pos.hand pos.stm) pt ≠ 0)
    (hocc : getSquare pos.occupancy t = false)
    (hzone : getSquare (getPromoRequiredZone pos.stm pt) t = false)
    (hpfile : getSquare (fillFile (pos.pieceBb ptPawn pos.stm)) t = false ∨
      (pt == ptPawn) = false) :
    pos.isPseudolegal (makeDrop pt t) = true := by
  have hd := mIsDrop_makeDrop pt t ht
  have hto := mTo_makeDrop pt t ht
  rcases hpfile with hp1 | hp1 <;>
    simp [Position.isPseudolegal, hd, hto, hdp, hhand, hocc, hzone, hp1]

theorem genPrecalc_sound {pos : Position} (hv : Valid pos) (canPromo : Bool) (pieces : Nat)
    (getter : Nat → Nat → Nat → Nat) (dstMask nonPromoMask : Nat)
    (hpieces : pieces < 2 ^ 128)
    (hsrc : ∀ f, pieces.testBit f = true →
      pos.pieceOn f ≠ pieceNone ∧
      pieceColor (pos.pieceOn f) = pos.stm ∧
      getter f pos.stm pos.occupancy
        = pieceAttacks (pieceType (pos.pieceOn f)) f pos.stm pos.occupancy ∧
      (canPromo = true → canPromotePt (pieceType (pos.pieceOn f)) = true) ∧
      getter f pos.stm pos.occupancy &&& pos.pieceBb ptKing (colorFlip pos.stm) = 0)
    (hf81 : ∀ f, pieces.testBit f = true → f < 81)
    (hdst : ∀ t, dstMask.testBit t = true → (bbNot (pos.mColors pos.stm)).testBit t = true)
    (hnp : ∀ f t, pieces.testBit f = true → nonPromoMask.testBit t = true → t < 81 →
      getSquare (getPromoRequiredZone pos.stm (pieceType (pos.pieceOn f))) t = false) :
    ∀ m ∈ genPrecalc canPromo pos pieces getter dstMask nonPromoMask,
      pos.isPseudolegal m = true := by
  have hdlt : dstMask < 2 ^ 128 := Nat.lt_pow_two_of_testBit dstMask (fun i hi => by
    cases h : dstMask.testBit i with
    | false => rfl
    | true => exact absurd (testBit_bbNot (hdst i h)).1 (by omega))
  intro m hm
  simp only [genPrecalc] at hm
  rcases List.mem_append.mp hm with hm1 | hm2
  · cases canPromo with
    | false => simp at hm1
    | true =>
      simp only [if_true] at hm1
      rcases List.mem_append.mp hm1 with hma | hmb
      · rw [List.mem_flatMap] at hma
        obtain ⟨f, hfmem, hser⟩ := hma
        have hfbit := bitList_subset 128 pieces f hpieces hfmem
        obtain ⟨hne, hcol, hgetter, hcanp, hkg⟩ := hsrc f hfbit
        have hf81f := hf81 f hfbit
        have hA : getter f pos.stm pos.occupancy &&& dstMask &&& promoArea pos.stm < 2 ^ 128 :=
          land_lt_left _ (land_lt_right _ hdlt)
        obtain ⟨t, htbit, ht128, rfl⟩ := serializePromosFrom_sound hA hser
        rw [Nat.testBit_land, Bool.and_eq_true] at htbit
        obtain ⟨ht1, htpa⟩ := htbit
        rw [Nat.testBit_land, Bool.and_eq_true] at ht1
        obtain ⟨htg, htd⟩ := ht1
        have hbnot := testBit_bbNot (hdst t htd)
        apply isPseudolegal_promo pos f t (by omega) ht128 hne hcol
        · exact valid_capture hv hbnot.1 hbnot.2 htg hkg
        · exact hcanp rfl
        · right
          rw [getSquare_eq_testBit _ ht128]
          exact htpa
        · rw [← hgetter, getSquare_eq_testBit _ ht128]
          exact htg
      · rw [List.mem_flatMap] at hmb
        obtain ⟨f, hfmem, hser⟩ := hmb
        have hfbit2 := bitList_subset 128 (pieces &&& promoArea pos.stm) f
          (land_lt_left _ hpieces) hfmem
        rw [Nat.testBit_land, Bool.and_eq_true] at hfbit2
        obtain ⟨hfbit, hfpa⟩ := hfbit2
        obtain ⟨hne, hcol, hgetter, hcanp, hkg⟩ := hsrc f hfbit
        have hf81f := hf81 f hfbit
        have hA : getter f pos.stm pos.occupancy &&& dstMask &&& bbNot (promoArea pos.stm)
            < 2 ^ 128 := land_lt_left _ (land_lt_right _ hdlt)
        obtain ⟨t, htbit, ht128, rfl⟩ := serializePromosFrom_sound hA hser
        rw [Nat.testBit_land, Bool.and_eq_true] at htbit
        obtain ⟨ht1, htpa⟩ := htbit
        rw [Nat.testBit_land, Bool.and_eq_true] at ht1
        obtain ⟨htg, htd⟩ := ht1
        have hbnot := testBit_bbNot (hdst t htd)
        apply isPseudolegal_promo pos f t (by omega) ht128 hne hcol
        · exact valid_capture hv hbnot.1 hbnot.2 htg hkg
        · exact hcanp rfl
        · left
          rw [getSquare_eq_testBit _ (show f < 128 by omega)]
          exact hfpa
        · rw [← hgetter, getSquare_eq_testBit _ ht128]
          exact htg
  · rw [List.mem_flatMap] at hm2
    obtain ⟨f, hfmem, hser⟩ := hm2
    have hfbit := bitList_subset 128 pieces f hpieces hfmem
    obtain ⟨hne, hcol, hgetter, hcanp, hkg⟩ := hsrc f hfbit
    have hf81f := hf81 f hfbit
    have hA : getter f pos.stm pos.occupancy &&& dstMask &&& nonPromoMask < 2 ^ 128 := by
      have h1 : getter f pos.stm pos.occupancy &&& dstMask < 2 ^ 128 := land_lt_right _ hdlt
      exact land_lt_left _ h1
    obtain ⟨t, htbit, ht128, rfl⟩ := serializeNormalsFrom_sound hA hser
    rw [Nat.testBit_land, Bool.and_eq_true] at htbit
    obtain ⟨ht1, htnp⟩ := htbit
    rw [Nat.testBit_land, Bool.and_eq_true] at ht1
    obtain ⟨htg, htd⟩ := ht1
    have hbnot := testBit_bbNot (hdst t htd)
    apply isPseudolegal_normal pos f t (by omega) ht128 hne hcol
    · exact valid_capture hv hbnot.1 hbnot.2 htg hkg
    · exact hnp f t hfbit htnp hbnot.1
    · rw [← hgetter, getSquare_eq_testBit _ ht128]
      exact htg

theorem pieceBb_lt {pos : Position} (hv : Valid pos) {pt : Nat} (hpt : pt < 14) (c : Nat) :
    pos.pieceBb pt c < 2 ^ 128 := by
  have h1 : pos.pieceBb pt c < 2 ^ 81 := land_lt_right _ (hv.2.2.1 pt hpt)
  exact lt_of_lt_of_le h1 (Nat.pow_le_pow_right (by norm_num) (by norm_num))

theorem genPrecalc_family_sound {pos : Position} (hv : Valid pos) (pt : Nat) (hpt : pt < 14)
    (canPromo : Bool) (getter : Nat → Nat → Nat → Nat) (dstMask nonPromoMask : Nat)
    (hgetter : ∀ f, getter f pos.stm pos.occupancy = pieceAttacks pt f pos.stm pos.occupancy)
    (hcanp : canPromo = true → canPromotePt pt = true)
    (hdst : ∀ t, dstMask.testBit t = true → (bbNot (pos.mColors pos.stm)).testBit t = true)
    (hnp : ∀ t, nonPromoMask.testBit t = true → t < 81 →
      getSquare (getPromoRequiredZone pos.stm pt) t = false) :
    ∀ m ∈ genPrecalc canPromo pos (pos.pieceBb pt pos.stm) getter dstMask nonPromoMask,
      pos.isPseudolegal m = true := by
  have hstm : pos.stm < 2 := hv.1
  refine genPrecalc_sound hv canPromo _ getter dstMask nonPromoMask
    (pieceBb_lt hv hpt pos.stm) ?_ ?_ hdst ?_
  · intro f hf
    obtain ⟨hf81, hmb⟩ := valid_mover hv hpt hf
    rw [hmb, pieceType_withColor _ _ hstm, pieceColor_withColor _ _ hstm]
    refine ⟨withColor_ne_none _ _ hpt hstm, rfl, hgetter f, fun hcp => hcanp hcp, ?_⟩
    rw [hgetter f]
    exact hv.2.2.2.2.2.2 pt hpt f hf81 hf
  · intro f hf
    exact (valid_mover hv hpt hf).1
  · intro f t hf htn ht81
    obtain ⟨hf81, hmb⟩ := valid_mover hv hpt hf
    rw [hmb, pieceType_withColor _ _ hstm]
    exact hnp t htn ht81

theorem zone_zero_getSquare (t : Nat) : getSquare 0 t = false := by
  simp [getSquare]

theorem generateLances_sound {pos : Position} (hv : Valid pos) (dstMask : Nat)
    (hdst : ∀ t, dstMask.testBit t = true → (bbNot (pos.mColors pos.stm)).testBit t = true) :
    ∀ m ∈ generateLances pos dstMask, pos.isPseudolegal m = true := by
  rw [generateLances]
  refine genPrecalc_family_sound hv ptLance (by decide) true _ dstMask _ ?_ ?_ hdst ?_
  · intro f
    simp [pieceAttacks, ptPawn, ptPromotedPawn, ptLance]
  · intro _
    decide
  · intro t htn ht81
    have hz : getPromoRequiredZone pos.stm ptLance = relativeRank pos.stm 8 := by
      simp [getPromoRequiredZone, ptLance, ptPawn, ptKnight]
    rw [hz, getSquare_eq_testBit _ (show t < 128 by omega)]
    exact (testBit_bbNot htn).2

theorem generateKnights_sound {pos : Position} (hv : Valid pos) (dstMask : Nat)
    (hdst : ∀ t, dstMask.testBit t = true → (bbNot (pos.mColors pos.stm)).testBit t = true) :
    ∀ m ∈ generateKnights pos dstMask, pos.isPseudolegal m = true := by
  rw [generateKnights]
  refine genPrecalc_family_sound hv ptKnight (by decide) true _ dstMask _ ?_ ?_ hdst ?_
  · intro f
    simp [pieceAttacks, ptPawn, ptPromotedPawn, ptLance, ptKnight]
  · intro _
    decide
  · intro t htn ht81
    have hz : getPromoRequiredZone pos.stm ptKnight =
        relativeRank pos.stm 8 ||| relativeRank pos.stm 7 := by
      simp [getPromoRequiredZone, ptKnight, ptPawn, ptLance]
    rw [hz, getSquare_eq_testBit _ (show t < 128 by omega)]
    exact (testBit_bbNot htn).2

theorem generateSilvers_sound {pos : Position} (hv : Valid pos) (dstMask : Nat)
    (hdst : ∀ t, dstMask.testBit t = true → (bbNot (pos.mColors pos.stm)).testBit t = true) :
    ∀ m ∈ generateSilvers pos dstMask, pos.isPseudolegal m = true := by
  rw [generateSilvers]
  refine genPrecalc_family_sound hv ptSilver (by decide) true _ dstMask _ ?_ ?_ hdst ?_
  · intro f
    simp [pieceAttacks, ptPawn, ptPromotedPawn, ptLance, ptKnight, ptPromotedLance,
      ptPromotedKnight, ptSilver]
  · intro _
    decide
  · intro t htn ht81
    have hz : getPromoRequiredZone pos.stm ptSilver = 0 := by
      simp [getPromoRequiredZone, ptSilver, ptPawn, ptLance, ptKnight]
    rw [hz]
    exact zone_zero_getSquare t

theorem generateBishops_sound {pos : Position} (hv : Valid pos) (dstMask : Nat)
    (hdst : ∀ t, dstMask.testBit t = true → (bbNot (pos.mColors pos.stm)).testBit t = true) :
    ∀ m ∈ generateBishops pos dstMask, pos.isPseudolegal m = true := by
  rw [generateBishops]
  refine genPrecalc_family_sound hv ptBishop (by decide) true _ dstMask _ ?_ ?_ hdst ?_
  · intro f
    simp [pieceAttacks, ptPawn, ptPromotedPawn, ptLance, ptKnight, ptPromotedLance,
      ptPromotedKnight, ptSilver, ptPromotedSilver, ptGold, ptBishop]
  · intro _
    decide
  · intro t htn ht81
    have hz : getPromoRequiredZone pos.stm ptBishop = 0 := by
      simp [getPromoRequiredZone, ptBishop, ptPawn, ptLance, ptKnight]
    rw [hz]
    exact zone_zero_getSquare t

theorem generateRooks_sound {pos : Position} (hv : Valid pos) (dstMask : Nat)
    (hdst : ∀ t, dstMask.testBit t = true → (bbNot (pos.mColors pos.stm)).testBit t = true) :
    ∀ m ∈ generateRooks pos dstMask, pos.isPseudolegal m = true := by
  rw [generateRooks]
  refine genPrecalc_family_sound hv ptRook (by decide) true _ dstMask _ ?_ ?_ hdst ?_
  · intro f
    simp [pieceAttacks, ptPawn, ptPromotedPawn, ptLance, ptKnight, ptPromotedLance,
      ptPromotedKnight, ptSilver, ptPromotedSilver, ptGold, ptBishop, ptRook]
  · intro _
    decide
  · intro t htn ht81
    have hz : getPromoRequiredZone pos.stm ptRook = 0 := by
      simp [getPromoRequiredZone, ptRook, ptPawn, ptLance, ptKnight]
    rw [hz]
    exact zone_zero_getSquare t

theorem generatePromotedBishops_sound {pos : Position} (hv : Valid pos) (dstMask : Nat)
    (hdst : ∀ t, dstMask.testBit t = true → (bbNot (pos.mColors pos.stm)).testBit t = true) :
    ∀ m ∈ generatePromotedBishops pos dstMask, pos.isPseudolegal m = true := by
  rw [generatePromotedBishops]
  refine genPrecalc_family_sound hv ptPromotedBishop (by decide) false _ dstMask _ ?_ ?_ hdst ?_
  · intro f
    simp [pieceAttacks, ptPawn, ptPromotedPawn, ptLance, ptKnight, ptPromotedLance,
      ptPromotedKnight, ptSilver, ptPromotedSilver, ptGold, ptBishop, ptRook, ptPromotedBishop]
  · intro h
    exact absurd h Bool.false_ne_true
  · intro t htn ht81
    have hz : getPromoRequiredZone pos.stm ptPromotedBishop = 0 := by
      simp [getPromoRequiredZone, ptPromotedBishop, ptPawn, ptLance, ptKnight]
    rw [hz]
    exact zone_zero_getSquare t

theorem generatePromotedRooks_sound {pos : Position} (hv : Valid pos) (dstMask : Nat)
    (hdst : ∀ t, dstMask.testBit t = true → (bbNot (pos.mColors pos.stm)).testBit t = true) :
    ∀ m ∈ generatePromotedRooks pos dstMask, pos.isPseudolegal m = true := by
  rw [generatePromotedRooks]
  refine genPrecalc_family_sound hv ptPromotedRook (by decide) false _ dstMask _ ?_ ?_ hdst ?_
  · intro f
    simp [pieceAttacks, ptPawn, ptPromotedPawn, ptLance, ptKnight, ptPromotedLance,
      ptPromotedKnight, ptSilver, ptPromotedSilver, ptGold, ptBishop, ptRook, ptPromotedBishop,
      ptPromotedRook]
  · intro h
    exact absurd h Bool.false_ne_true
  · intro t htn ht81
    have hz : getPromoRequiredZone pos.stm ptPromotedRook = 0 := by
      simp [getPromoRequiredZone, ptPromotedRook, ptPawn, ptLance, ptKnight]
    rw [hz]
    exact zone_zero_getSquare t

theorem generateKings_sound {pos : Position} (hv : Valid pos) (dstMask : Nat)
    (hdst : ∀ t, dstMask.testBit t = true → (bbNot (pos.mColors pos.stm)).testBit t = true) :
    ∀ m ∈ generateKings pos dstMask, pos.isPseudolegal m = true := by
  rw [generateKings]
  refine genPrecalc_family_sound hv ptKing (by decide) false _ dstMask _ ?_ ?_ hdst ?_
  · intro f
    simp [pieceAttacks, ptPawn, ptPromotedPawn, ptLance, ptKnight, ptPromotedLance,
      ptPromotedKnight, ptSilver, ptPromotedSilver, ptGold, ptBishop, ptRook, ptPromotedBishop,
      ptPromotedRook, ptKing]
  · intro h
    exact absurd h Bool.false_ne_true
  · intro t htn ht81
    have hz : getPromoRequiredZone pos.stm ptKing = 0 := by
      simp [getPromoRequiredZone, ptKing, ptPawn, ptLance, ptKnight]
    rw [hz]
    exact zone_zero_getSquare t

theorem gold_member {pos : Position} (hv : Valid pos) {f : Nat}
    (hf : (pos.pieceBb ptGold pos.stm ||| pos.pieceBb ptPromotedPawn pos.stm |||
      pos.pieceBb ptPromotedLance pos.stm ||| pos.pieceBb ptPromotedKnight pos.stm |||
      pos.pieceBb ptPromotedSilver pos.stm).testBit f = true) :
    ∃ pt, pt < 14 ∧ (pos.pieceBb pt pos.stm).testBit f = true ∧
      pieceAttacks pt f pos.stm pos.occupancy = goldAttacks f pos.stm ∧
      getPromoRequiredZone pos.stm pt = 0 := by
  simp only [Nat.testBit_lor, Bool.or_eq_true] at hf
  rcases hf with ((((h | h) | h) | h) | h)
  · exact ⟨ptGold, by decide, h,
      by simp [pieceAttacks, ptPawn, ptPromotedPawn, ptLance, ptKnight, ptPromotedLance,
        ptPromotedKnight, ptSilver, ptPromotedSilver, ptGold],
      by simp [getPromoRequiredZone, ptGold, ptPawn, ptLance, ptKnight]⟩
  · exact ⟨ptPromotedPawn, by decide, h,
      by simp [pieceAttacks, ptPawn, ptPromotedPawn],
      by simp [getPromoRequiredZone, ptPromotedPawn, ptPawn, ptLance, ptKnight]⟩
  · exact ⟨ptPromotedLance, by decide, h,
      by simp [pieceAttacks, ptPawn, ptPromotedPawn, ptLance, ptKnight, ptPromotedLance],
      by simp [getPromoRequiredZone, ptPromotedLance, ptPawn, ptLance, ptKnight]⟩
  · exact ⟨ptPromotedKnight, by decide, h,
      by simp [pieceAttacks, ptPawn, ptPromotedPawn, ptLance, ptKnight, ptPromotedLance,
        ptPromotedKnight],
      by simp [getPromoRequiredZone, ptPromotedKnight, ptPawn, ptLance, ptKnight]⟩
  · exact ⟨ptPromotedSilver, by decide, h,
      by simp [pieceAttacks, ptPawn, ptPromotedPawn, ptLance, ptKnight, ptPromotedLance,
        ptPromotedKnight, ptSilver, ptPromotedSilver],
      by simp [getPromoRequiredZone, ptPromotedSilver, ptPawn, ptLance, ptKnight]⟩

theorem generateGolds_sound {pos : Position} (hv : Valid pos) (dstMask : Nat)
    (hdst : ∀ t, dstMask.testBit t = true → (bbNot (pos.mColors pos.stm)).testBit t = true) :
    ∀ m ∈ generateGolds pos dstMask, pos.isPseudolegal m = true := by
  have hstm : pos.stm < 2 := hv.1
  simp only [generateGolds]
  refine genPrecalc_sound hv false _ _ dstMask kAll ?_ ?_ ?_ hdst ?_
  · have hb : ∀ pt, pt < 14 → pos.pieceBb pt pos.stm < 2 ^ 81 :=
      fun pt hpt => land_lt_right _ (hv.2.2.1 pt hpt)
    have h81 : pos.pieceBb ptGold pos.stm ||| pos.pieceBb ptPromotedPawn pos.stm |||
        pos.pieceBb ptPromotedLance pos.stm ||| pos.pieceBb ptPromotedKnight pos.stm |||
        pos.pieceBb ptPromotedSilver pos.stm < 2 ^ 81 :=
      lor_lt (lor_lt (lor_lt (lor_lt (hb ptGold (by decide)) (hb ptPromotedPawn (by decide)))
        (hb ptPromotedLance (by decide))) (hb ptPromotedKnight (by decide)))
        (hb ptPromotedSilver (by decide))
    exact lt_of_lt_of_le h81 (Nat.pow_le_pow_right (by norm_num) (by norm_num))
  · intro f hf
    obtain ⟨pt, hpt, hbit, hga, hz⟩ := gold_member hv hf
    obtain ⟨hf81, hmb⟩ := valid_mover hv hpt hbit
    rw [hmb, pieceType_withColor _ _ hstm, pieceColor_withColor _ _ hstm]
    refine ⟨withColor_ne_none _ _ hpt hstm, rfl, hga.symm, fun hcp => absurd hcp
      Bool.false_ne_true, ?_⟩
    rw [← hga]
    exact hv.2.2.2.2.2.2 pt hpt f hf81 hbit
  · intro f hf
    obtain ⟨pt, hpt, hbit, _, _⟩ := gold_member hv hf
    exact (valid_mover hv hpt hbit).1
  · intro f t hf htn ht81
    obtain ⟨pt, hpt, hbit, hga, hz⟩ := gold_member hv hf
    obtain ⟨hf81, hmb⟩ := valid_mover hv hpt hbit
    rw [hmb, pieceType_withColor _ _ hstm, hz]
    exact zone_zero_getSquare t

theorem testBit_shiftNorth {x t : Nat} (h : (shiftNorth x).testBit t = true) :
    9 ≤ t ∧ x.testBit (t - 9) = true ∧ kRankA.testBit (t - 9) = false := by
  rw [shiftNorth, tb_shl128, Nat.testBit_land] at h
  simp only [Bool.and_eq_true, decide_eq_true_eq] at h
  obtain ⟨ht128, h9, hx, hun⟩ := h
  refine ⟨h9, hx, ?_⟩
  rw [tb_unot128 _ (show t - 9 < 128 by omega)] at hun
  simp at hun
  exact hun

theorem testBit_shiftSouth {x t : Nat} (h : (shiftSouth x).testBit t = true) :
    x.testBit (t + 9) = true := by
  rw [shiftSouth, Nat.testBit_shiftRight] at h
  rw [Nat.add_comm]
  exact h

theorem pawnAttacks_north_bit {t : Nat} (ht81 : t < 81) (h9 : 9 ≤ t)
    (hedge : kRankA.testBit (t - 9) = false) : (pawnAttacks (t - 9) 0).testBit t = true := by
  have h128 : t - 9 < 128 := by omega
  rw [pawnAttacks, show shiftNorthRelative 0 (sqBit (t - 9)) = shiftNorth (sqBit (t - 9))
      by simp [shiftNorthRelative],
    shiftNorth, Nat.testBit_land, tb_kAll, tb_shl128, Nat.testBit_land, tb_sqBit,
    tb_unot128 _ h128, hedge]
  simp [show t < 128 by omega, h9, ht81, h128]

theorem pawnAttacks_south_bit {t : Nat} (ht81 : t < 81) :
    (pawnAttacks (t + 9) 1).testBit t = true := by
  rw [pawnAttacks, show shiftNorthRelative 1 (sqBit (t + 9)) = shiftSouth (sqBit (t + 9))
      by simp [shiftNorthRelative],
    shiftSouth, Nat.testBit_land, tb_kAll, Nat.testBit_shiftRight, tb_sqBit]
  simp [show 9 + t < 128 by omega, ht81]
  omega

theorem generatePawns_sound {pos : Position} (hv : Valid pos) (dstMask : Nat)
    (hdst : ∀ t, dstMask.testBit t = true → (bbNot (pos.mColors pos.stm)).testBit t = true) :
    ∀ m ∈ generatePawns pos dstMask, pos.isPseudolegal m = true := by
  have hstm : pos.stm < 2 := hv.1
  have hdlt : dstMask < 2 ^ 128 := Nat.lt_pow_two_of_testBit dstMask (fun i hi => by
    cases h : dstMask.testBit i with
    | false => rfl
    | true => exact absurd (testBit_bbNot (hdst i h)).1 (by omega))
  have hpawnAtk : ∀ f, pieceAttacks ptPawn f pos.stm pos.occupancy = pawnAttacks f pos.stm := by
    intro f
    simp [pieceAttacks, ptPawn]
  intro m hm
  simp only [generatePawns] at hm
  rcases List.mem_append.mp hm with hm1 | hm2
  · have hA : shiftNorthRelative pos.stm (pos.pieceBb ptPawn pos.stm) &&& dstMask &&&
        promoArea pos.stm < 2 ^ 128 := land_lt_left _ (land_lt_right _ hdlt)
    obtain ⟨t, htbit, ht128, rfl⟩ := serializePromosOff_sound hA hm1
    rw [Nat.testBit_land, Bool.and_eq_true] at htbit
    obtain ⟨ht1, htpa⟩ := htbit
    rw [Nat.testBit_land, Bool.and_eq_true] at ht1
    obtain ⟨hts, htd⟩ := ht1
    have hbnot := testBit_bbNot (hdst t htd)
    have ht81 := hbnot.1
    rcases (by omega : pos.stm = 0 ∨ pos.stm = 1) with h0 | h0
    · rw [show shiftNorthRelative pos.stm (pos.pieceBb ptPawn pos.stm) =
          shiftNorth (pos.pieceBb ptPawn pos.stm) by rw [h0]; simp [shiftNorthRelative]] at hts
      obtain ⟨h9, hpb, hedge⟩ := testBit_shiftNorth hts
      have hofs : sqOffset t (-relativeOffset pos.stm offNorth) = t - 9 := by
        rw [show relativeOffset pos.stm offNorth = 9 by
          rw [h0]; simp [relativeOffset, offNorth], sqOffset]
        omega
      rw [hofs]
      obtain ⟨hf81, hmb⟩ := valid_mover hv (show ptPawn < 14 by decide) hpb
      have hbit : (pawnAttacks (t - 9) pos.stm).testBit t = true := by
        rw [h0]
        exact pawnAttacks_north_bit ht81 h9 hedge
      have hAk : pawnAttacks (t - 9) pos.stm &&& pos.pieceBb ptKing (colorFlip pos.stm) = 0 := by
        rw [← hpawnAtk]
        exact hv.2.2.2.2.2.2 ptPawn (by decide) (t - 9) hf81 hpb
      apply isPseudolegal_promo pos (t - 9) t (by omega) (by omega)
      · rw [hmb]
        exact withColor_ne_none _ _ (by decide) hstm
      · rw [hmb, pieceColor_withColor _ _ hstm]
      · exact valid_capture hv ht81 hbnot.2 hbit hAk
      · rw [hmb, pieceType_withColor _ _ hstm]
        decide
      · right
        rw [getSquare_eq_testBit _ (show t < 128 by omega)]
        exact htpa
      · rw [hmb, pieceType_withColor _ _ hstm, hpawnAtk,
          getSquare_eq_testBit _ (show t < 128 by omega)]
        exact hbit
    · rw [show shiftNorthRelative pos.stm (pos.pieceBb ptPawn pos.stm) =
          shiftSouth (pos.pieceBb ptPawn pos.stm) by rw [h0]; simp [shiftNorthRelative]] at hts
      have hpb := testBit_shiftSouth hts
      have hofs : sqOffset t (-relativeOffset pos.stm offNorth) = t + 9 := by
        rw [show relativeOffset pos.stm offNorth = -9 by
          rw [h0]; simp [relativeOffset, offNorth], sqOffset]
        omega
      rw [hofs]
      obtain ⟨hf81, hmb⟩ := valid_mover hv (show ptPawn < 14 by decide) hpb
      have hbit : (pawnAttacks (t + 9) pos.stm).testBit t = true := by
        rw [h0]
        exact pawnAttacks_south_bit ht81
      have hAk : pawnAttacks (t + 9) pos.stm &&& pos.pieceBb ptKing (colorFlip pos.stm) = 0 := by
        rw [← hpawnAtk]
        exact hv.2.2.2.2.2.2 ptPawn (by decide) (t + 9) hf81 hpb
      apply isPseudolegal_promo pos (t + 9) t (by omega) (by omega)
      · rw [hmb]
        exact withColor_ne_none _ _ (by decide) hstm
      · rw [hmb, pieceColor_withColor _ _ hstm]
      · exact valid_capture hv ht81 hbnot.2 hbit hAk
      · rw [hmb, pieceType_withColor _ _ hstm]
        decide
      · right
        rw [getSquare_eq_testBit _ (show t < 128 by omega)]
        exact htpa
      · rw [hmb, pieceType_withColor _ _ hstm, hpawnAtk,
          getSquare_eq_testBit _ (show t < 128 by omega)]
        exact hbit
  · have hA : shiftNorthRelative pos.stm (pos.pieceBb ptPawn pos.stm) &&& dstMask &&&
        bbNot (relativeRank pos.stm 8) < 2 ^ 128 := land_lt_left _ (land_lt_right _ hdlt)
    obtain ⟨t, htbit, ht128, rfl⟩ := serializeNormalsOff_sound hA hm2
    rw [Nat.testBit_land, Bool.and_eq_true] at htbit
    obtain ⟨ht1, htnp⟩ := htbit
    rw [Nat.testBit_land, Bool.and_eq_true] at ht1
    obtain ⟨hts, htd⟩ := ht1
    have hbnot := testBit_bbNot (hdst t htd)
    have ht81 := hbnot.1
    have hzone : getSquare (getPromoRequiredZone pos.stm ptPawn) t = false := by
      rw [show getPromoRequiredZone pos.stm ptPawn = relativeRank pos.stm 8 by
        simp [getPromoRequiredZone, ptPawn, ptKnight],
        getSquare_eq_testBit _ (show t < 128 by omega)]
      exact (testBit_bbNot htnp).2
    rcases (by omega : pos.stm = 0 ∨ pos.stm = 1) with h0 | h0
    · rw [show shiftNorthRelative pos.stm (pos.pieceBb ptPawn pos.stm) =
          shiftNorth (pos.pieceBb ptPawn pos.stm) by rw [h0]; simp [shiftNorthRelative]] at hts
      obtain ⟨h9, hpb, hedge⟩ := testBit_shiftNorth hts
      have hofs : sqOffset t (-relativeOffset pos.stm offNorth) = t - 9 := by
        rw [show relativeOffset pos.stm offNorth = 9 by
          rw [h0]; simp [relativeOffset, offNorth], sqOffset]
        omega
      rw [hofs]
      obtain ⟨hf81, hmb⟩ := valid_mover hv (show ptPawn < 14 by decide) hpb
      have hbit : (pawnAttacks (t - 9) pos.stm).testBit t = true := by
        rw [h0]
        exact pawnAttacks_north_bit ht81 h9 hedge
      have hAk : pawnAttacks (t - 9) pos.stm &&& pos.pieceBb ptKing (colorFlip pos.stm) = 0 := by
        rw [← hpawnAtk]
        exact hv.2.2.2.2.2.2 ptPawn (by decide) (t - 9) hf81 hpb
      apply isPseudolegal_normal pos (t - 9) t (by omega) (by omega)
      · rw [hmb]
        exact withColor_ne_none _ _ (by decide) hstm
      · rw [hmb, pieceColor_withColor _ _ hstm]
      · exact valid_capture hv ht81 hbnot.2 hbit hAk
      · rw [hmb, pieceType_withColor _ _ hstm]
        exact hzone
      · rw [hmb, pieceType_withColor _ _ hstm, hpawnAtk,
          getSquare_eq_testBit _ (show t < 128 by omega)]
        exact hbit
    · rw [show shiftNorthRelative pos.stm (pos.pieceBb ptPawn pos.stm) =
          shiftSouth (pos.pieceBb ptPawn pos.stm) by rw [h0]; simp [shiftNorthRelative]] at hts
      have hpb := testBit_shiftSouth hts
      have hofs : sqOffset t (-relativeOffset pos.stm offNorth) = t + 9 := by
        rw [show relativeOffset pos.stm offNorth = -9 by
          rw [h0]; simp [relativeOffset, offNorth], sqOffset]
        omega
      rw [hofs]
      obtain ⟨hf81, hmb⟩ := valid_mover hv (show ptPawn < 14 by decide) hpb
      have hbit : (pawnAttacks (t + 9) pos.stm).testBit t = true := by
        rw [h0]
        exact pawnAttacks_south_bit ht81
      have hAk : pawnAttacks (t + 9) pos.stm &&& pos.pieceBb ptKing (colorFlip pos.stm) = 0 := by
        rw [← hpawnAtk]
        exact hv.2.2.2.2.2.2 ptPawn (by decide) (t + 9) hf81 hpb
      apply isPseudolegal_normal pos (t + 9) t (by omega) (by omega)
      · rw [hmb]
        exact withColor_ne_none _ _ (by decide) hstm
      · rw [hmb, pieceColor_withColor _ _ hstm]
      · exact valid_capture hv ht81 hbnot.2 hbit hAk
      · rw [hmb, pieceType_withColor _ _ hstm]
        exact hzone
      · rw [hmb, pieceType_withColor _ _ hstm, hpawnAtk,
          getSquare_eq_testBit _ (show t < 128 by omega)]
        exact hbit

theorem drop_block_sound {pos : Position} (dropMask : Nat)
    (hocc : ∀ t, dropMask.testBit t = true → (bbNot pos.occupancy).testBit t = true)
    (pt restriction : Nat) (hdlt : dropMask < 2 ^ 128)
    (hdp : ∀ t, t < 128 → mDropPiece (makeDrop pt t) = pt)
    (hhand : handCount (pos.hand pos.stm) pt ≠ 0)
    (hzone : ∀ t, restriction.testBit t = true → t < 81 →
      getSquare (getPromoRequiredZone pos.stm pt) t = false)
    (hpf : ∀ t, restriction.testBit t = true → t < 81 →
      getSquare (fillFile (pos.pieceBb ptPawn pos.stm)) t = false ∨ (pt == ptPawn) = false) :
    ∀ m ∈ serializeDrops pt (dropMask &&& restriction), pos.isPseudolegal m = true := by
  intro m hm
  obtain ⟨t, htbit, ht128, rfl⟩ := serializeDrops_sound (land_lt_left _ hdlt) hm
  rw [Nat.testBit_land, Bool.and_eq_true] at htbit
  obtain ⟨htd, htr⟩ := htbit
  have hb := testBit_bbNot (hocc t htd)
  refine isPseudolegal_drop pos pt t ht128 (hdp t ht128) hhand ?_ ?_ ?_
  · rw [getSquare_eq_testBit _ ht128]
    exact hb.2
  · exact hzone t htr hb.1
  · exact hpf t htr hb.1

theorem generateDrops_sound {pos : Position} (hv : Valid pos) (dropMask : Nat)
    (hocc : ∀ t, dropMask.testBit t = true → (bbNot pos.occupancy).testBit t = true) :
    ∀ m ∈ generateDrops pos dropMask, pos.isPseudolegal m = true := by
  have hdlt : dropMask < 2 ^ 128 := Nat.lt_pow_two_of_testBit dropMask (fun i hi => by
    cases h : dropMask.testBit i with
    | false => rfl
    | true => exact absurd (testBit_bbNot (hocc i h)).1 (by omega))
  intro m hm
  simp only [generateDrops] at hm
  by_cases hz : dropMask = 0
  · rw [if_pos hz] at hm
    simp at hm
  rw [if_neg hz] at hm
  by_cases he : handEmpty (pos.hand pos.stm) = true
  · rw [if_pos he] at hm
    simp at hm
  rw [if_neg he] at hm
  simp only [List.append_assoc] at hm
  have hzoneZero : ∀ pt, getPromoRequiredZone pos.stm pt = 0 →
      ∀ t, t < 81 → getSquare (getPromoRequiredZone pos.stm pt) t = false := by
    intro pt hz0 t ht
    rw [hz0]
    exact zone_zero_getSquare t
  rcases List.mem_append.mp hm with h1 | hm
  · by_cases hc : handCount (pos.hand pos.stm) ptPawn > 0
    · rw [if_pos hc] at h1
      refine drop_block_sound dropMask hocc ptPawn _ hdlt
        (fun t ht => by rw [mDropPiece_makeDrop _ _ ht]; decide) (by omega) ?_ ?_ m h1
      · intro t htr ht81
        rw [Nat.testBit_land, Bool.and_eq_true] at htr
        rw [show getPromoRequiredZone pos.stm ptPawn = relativeRank pos.stm 8 by
          simp [getPromoRequiredZone, ptPawn, ptKnight],
          getSquare_eq_testBit _ (show t < 128 by omega)]
        exact (testBit_bbNot htr.1).2
      · intro t htr ht81
        rw [Nat.testBit_land, Bool.and_eq_true] at htr
        left
        rw [getSquare_eq_testBit _ (show t < 128 by omega)]
        exact (testBit_bbNot htr.2).2
    · rw [if_neg hc] at h1
      simp at h1
  rcases List.mem_append.mp hm with h1 | hm
  · by_cases hc : handCount (pos.hand pos.stm) ptLance > 0
    · rw [if_pos hc] at h1
      refine drop_block_sound dropMask hocc ptLance _ hdlt
        (fun t ht => by rw [mDropPiece_makeDrop _ _ ht]; decide) (by omega) ?_
        (fun t _ _ => Or.inr (by decide)) m h1
      intro t htr ht81
      rw [show getPromoRequiredZone pos.stm ptLance = relativeRank pos.stm 8 by
        simp [getPromoRequiredZone, ptLance, ptPawn, ptKnight],
        getSquare_eq_testBit _ (show t < 128 by omega)]
      exact (testBit_bbNot htr).2
    · rw [if_neg hc] at h1
      simp at h1
  rcases List.mem_append.mp hm with h1 | hm
  · by_cases hc : handCount (pos.hand pos.stm) ptKnight > 0
    · rw [if_pos hc] at h1
      refine drop_block_sound dropMask hocc ptKnight _ hdlt
        (fun t ht => by rw [mDropPiece_makeDrop _ _ ht]; decide) (by omega) ?_
        (fun t _ _ => Or.inr (by decide)) m h1
      intro t htr ht81
      rw [show getPromoRequiredZone pos.stm ptKnight =
          relativeRank pos.stm 8 ||| relativeRank pos.stm 7 by
        simp [getPromoRequiredZone, ptKnight, ptPawn, ptLance],
        getSquare_eq_testBit _ (show t < 128 by omega)]
      exact (testBit_bbNot htr).2
    · rw [if_neg hc] at h1
      simp at h1
  rcases List.mem_append.mp hm with h1 | hm
  · by_cases hc : handCount (pos.hand pos.stm) ptSilver > 0
    · rw [if_pos hc] at h1
      exact drop_block_sound dropMask hocc ptSilver _ hdlt
        (fun t ht => by rw [mDropPiece_makeDrop _ _ ht]; decide) (by omega)
        (fun t _ ht81 => hzoneZero ptSilver
          (by simp [getPromoRequiredZone, ptSilver, ptPawn, ptLance, ptKnight]) t ht81)
        (fun t _ _ => Or.inr (by decide)) m h1
    · rw [if_neg hc] at h1
      simp at h1
  rcases List.mem_append.mp hm with h1 | hm
  · by_cases hc : handCount (pos.hand pos.stm) ptGold > 0
    · rw [if_pos hc] at h1
      exact drop_block_sound dropMask hocc ptGold _ hdlt
        (fun t ht => by rw [mDropPiece_makeDrop _ _ ht]; decide) (by omega)
        (fun t _ ht81 => hzoneZero ptGold
          (by simp [getPromoRequiredZone, ptGold, ptPawn, ptLance, ptKnight]) t ht81)
        (fun t _ _ => Or.inr (by decide)) m h1
    · rw [if_neg hc] at h1
      simp at h1
  rcases List.mem_append.mp hm with h1 | h1
  · by_cases hc : handCount (pos.hand pos.stm) ptBishop > 0
    · rw [if_pos hc] at h1
      exact drop_block_sound dropMask hocc ptBishop _ hdlt
        (fun t ht => by rw [mDropPiece_makeDrop _ _ ht]; decide) (by omega)
        (fun t _ ht81 => hzoneZero ptBishop
          (by simp [getPromoRequiredZone, ptBishop, ptPawn, ptLance, ptKnight]) t ht81)
        (fun t _ _ => Or.inr (by decide)) m h1
    · rw [if_neg hc] at h1
      simp at h1
  · by_cases hc : handCount (pos.hand pos.stm) ptRook > 0
    · rw [if_pos hc] at h1
      exact drop_block_sound dropMask hocc ptRook _ hdlt
        (fun t ht => by rw [mDropPiece_makeDrop _ _ ht]; decide) (by omega)
        (fun t _ ht81 => hzoneZero ptRook
          (by simp [getPromoRequiredZone, ptRook, ptPawn, ptLance, ptKnight]) t ht81)
        (fun t _ _ => Or.inr (by decide)) m h1
    · rw [if_neg hc] at h1
      simp at h1

theorem hLand {A X t : Nat} (h : (A &&& X).testBit t = true) : A.testBit t = true := by
  rw [Nat.testBit_land, Bool.and_eq_true] at h
  exact h.1

theorem hLandR {A X t : Nat} (h : (A &&& X).testBit t = true) : X.testBit t = true := by
  rw [Nat.testBit_land, Bool.and_eq_true] at h
  exact h.2

/-- C8: in every valid position, every move emitted by `generateAll` is
pseudo-legal. -/
theorem generateAll_pseudolegal (pos : Position) (hv : Valid pos) :
    ∀ m ∈ generateAll pos, pos.isPseudolegal m = true := by
  intro m hm
  rw [generateAll] at hm
  simp only [generateMoves] at hm
  have hdst0 : ∀ t, (bbNot (pos.colorBb pos.stm)).testBit t = true →
      (bbNot (pos.mColors pos.stm)).testBit t = true := fun t h => h
  by_cases hmul : bbMultiple pos.mCheckers = true
  · rw [if_pos hmul] at hm
    exact generateKings_sound hv _ hdst0 m hm
  rw [if_neg hmul] at hm
  by_cases hchk : (pos.mCheckers != 0) = true
  · rw [if_pos hchk] at hm
    dsimp only at hm
    simp only [List.append_assoc] at hm
    rcases List.mem_append.mp hm with h1 | hm
    · exact generateKings_sound hv _ hdst0 m h1
    rcases List.mem_append.mp hm with h1 | hm
    · exact generatePawns_sound hv _ (fun t h => hdst0 t (hLand h)) m h1
    rcases List.mem_append.mp hm with h1 | hm
    · exact generateLances_sound hv _ (fun t h => hdst0 t (hLand h)) m h1
    rcases List.mem_append.mp hm with h1 | hm
    · exact generateKnights_sound hv _ (fun t h => hdst0 t (hLand h)) m h1
    rcases List.mem_append.mp hm with h1 | hm
    · exact generateSilvers_sound hv _ (fun t h => hdst0 t (hLand h)) m h1
    rcases List.mem_append.mp hm with h1 | hm
    · exact generateGolds_sound hv _ (fun t h => hdst0 t (hLand h)) m h1
    rcases List.mem_append.mp hm with h1 | hm
    · exact generateBishops_sound hv _ (fun t h => hdst0 t (hLand h)) m h1
    rcases List.mem_append.mp hm with h1 | hm
    · exact generateRooks_sound hv _ (fun t h => hdst0 t (hLand h)) m h1
    rcases List.mem_append.mp hm with h1 | hm
    · exact generatePromotedBishops_sound hv _ (fun t h => hdst0 t (hLand h)) m h1
    rcases List.mem_append.mp hm with h1 | hm
    · exact generatePromotedRooks_sound hv _ (fun t h => hdst0 t (hLand h)) m h1
    simp only [if_true] at hm
    exact generateDrops_sound hv _ (fun t h => hLandR (hLand h)) m hm
  · rw [if_neg hchk] at hm
    dsimp only at hm
    simp only [List.append_assoc] at hm
    rcases List.mem_append.mp hm with h1 | hm
    · exact generateKings_sound hv _ hdst0 m h1
    rcases List.mem_append.mp hm with h1 | hm
    · exact generatePawns_sound hv _ hdst0 m h1
    rcases List.mem_append.mp hm with h1 | hm
    · exact generateLances_sound hv _ hdst0 m h1
    rcases List.mem_append.mp hm with h1 | hm
    · exact generateKnights_sound hv _ hdst0 m h1
    rcases List.mem_append.mp hm with h1 | hm
    · exact generateSilvers_sound hv _ hdst0 m h1
    rcases List.mem_append.mp hm with h1 | hm
    · exact generateGolds_sound hv _ hdst0 m h1
    rcases List.mem_append.mp hm with h1 | hm
    · exact generateBishops_sound hv _ hdst0 m h1
    rcases List.mem_append.mp hm with h1 | hm
    · exact generateRooks_sound hv _ hdst0 m h1
    rcases List.mem_append.mp hm with h1 | hm
    · exact generatePromotedBishops_sound hv _ hdst0 m h1
    rcases List.mem_append.mp hm with h1 | hm
    · exact generatePromotedRooks_sound hv _ hdst0 m h1
    simp only [if_true] at hm
    exact generateDrops_sound hv _ (fun t h => hLandR h) m hm

/-- The C8 soundness theorem applied at the starting position, whose
validity is checked by computation. -/
theorem generateAll_pseudolegal_witness :
    Valid startpos ∧ ∀ m ∈ generateAll startpos, startpos.isPseudolegal m = true :=
  ⟨by unfold Valid; decide, generateAll_pseudolegal startpos (by unfold Valid; decide)⟩

end Stoat
